import Mathlib

/-!
Verification development for the TelecomChatbot repository.

The repository is a customer-support conversational agent built around an
LLM-with-tools loop.  This file gives a shallow embedding of the parts of the
code that the checked properties are about:

* `src/utils.py` — identifier extraction, the presentation sanitizer
  (`_finish_if_chopped`, `sanitize_internal_jargon`, `extract_message_text`)
  and `fallback_reply_for_route`;
* `src/tools.py` — `get_customer_data`, `calculate_retention_offer`,
  `update_customer_status`;
* `src/graph.py` — the `_invoke_agent` agent-step loop (bounded tool rounds,
  profile persistence, out-of-band reply synthesis, post-loop billing repair)
  and the `_route_after_greeter` conditional edge.

Python strings are modelled as Lean `String`s with explicit, executable models
of the Python primitives used by the code (`strip`, `rstrip`, `lower`,
substring membership, `startswith`).  The two regular expressions of
`extract_email_or_cust_id` are modelled by direct leftmost-search functions
over character lists.  External collaborators (the hosted LLM, the retriever,
the wall clock) enter as explicit oracle parameters; everything that is code
of the repository is translated from the source.
-/

/-! ### Python string primitives -/

/-- Python `\w` (word character) for the ASCII inputs the repo handles:
letters, digits, or underscore. -/
def isWordChar (c : Char) : Bool := c.isAlphanum || c = '_'

/-- Characters Python's `str.strip()` removes (ASCII whitespace). -/
def isPyWs (c : Char) : Bool := c = ' ' || c = '\t' || c = '\n' || c = '\r'

/-- Python `str.strip()` on a character list. -/
def pyStripList (l : List Char) : List Char :=
  ((l.dropWhile isPyWs).reverse.dropWhile isPyWs).reverse

/-- Python `str.strip()`. -/
def pyStrip (s : String) : String := ⟨pyStripList s.data⟩

/-- Python `str.rstrip()`. -/
def pyRStrip (s : String) : String := ⟨(s.data.reverse.dropWhile isPyWs).reverse⟩

/-- Python `str.lower()` (ASCII case folding, as used by the repo). -/
def pyLower (s : String) : String := ⟨s.data.map Char.toLower⟩

/-- `isPrefixB p l` decides whether `p` is a prefix of `l`. -/
def isPrefixB : List Char → List Char → Bool
  | [], _ => true
  | _ :: _, [] => false
  | a :: as, b :: bs => a = b && isPrefixB as bs

/-- `isInfixB n l` decides whether `n` occurs contiguously inside `l`. -/
def isInfixB (n : List Char) : List Char → Bool
  | [] => isPrefixB n []
  | l@(_ :: rest) => isPrefixB n l || isInfixB n rest

/-- Python `needle in hay` substring test. -/
def containsSub (hay needle : String) : Bool := isInfixB needle.data hay.data

/-- Python `s.startswith(p)`. -/
def strStartsWith (s p : String) : Bool := isPrefixB p.data s.data

/-- Python truthiness-with-default on an optional string:
`x or d` where `None` and `""` are falsy. -/
def pyOr (o : Option String) (d : String) : String :=
  match o with
  | none => d
  | some "" => d
  | some s => s

/-! ### `src/utils.py`: the presentation sanitizer -/

/-- The punctuation set `".?!\"'"` tested by `_finish_if_chopped`. -/
def chopPunct : List Char := ['.', '?', '!', '"', Char.ofNat 39]

/-- `_finish_if_chopped` from `src/utils.py`: if text looks truncated
(at least 200 characters and no sentence-final punctuation after
right-stripping), append an ellipsis. -/
def finishIfChopped (text : String) : String :=
  if text = "" || text.data.length < 200 then text
  else
    let t := pyRStrip text
    if t ≠ "" && !(match t.data.getLast? with
                   | some c => chopPunct.contains c
                   | none => true) then
      t ++ "…"
    else text

/-- The replacement sentence used by `sanitize_internal_jargon`. -/
def jargonReply : String := "Is there anything else I can help you with?"

/-- `sanitize_internal_jargon` from `src/utils.py`: replace leaked internal
routing phrases by a generic prompt, otherwise return the text unchanged
(empty input comes back as `""`). -/
def sanitize_internal_jargon (text : String) : String :=
  if text = "" then ""
  else
    let t := pyLower (pyStrip text)
    if containsSub t "route" && (containsSub t "has been set" || containsSub t "set to ") then
      jargonReply
    else if containsSub t "set to end" || containsSub t "set to retention" ||
            containsSub t "set to cancel" || containsSub t "set to billing" ||
            containsSub t "set to tech" then
      jargonReply
    else text

/-- The presentation sanitizer as applied to a displayed assistant string:
truncation repair followed by internal-jargon replacement
(the composition taken by `extract_message_text` on string content). -/
def sanitizeDisplay (s : String) : String :=
  sanitize_internal_jargon (finishIfChopped s)

/-- The jargon trigger of `sanitize_internal_jargon`: the disjunction of the
two pattern conditions the function tests. -/
def jargonTrig (s : String) : Bool :=
  let t := pyLower (pyStrip s)
  (containsSub t "route" && (containsSub t "has been set" || containsSub t "set to ")) ||
  (containsSub t "set to end" || containsSub t "set to retention" ||
   containsSub t "set to cancel" || containsSub t "set to billing" ||
   containsSub t "set to tech")

/-- The truncation trigger of `_finish_if_chopped`: nonempty, at least 200
characters, and after right-stripping still nonempty without sentence-final
punctuation. -/
def truncTrig (s : String) : Bool :=
  !(s = "" || s.data.length < 200) &&
  (pyRStrip s ≠ "" && !(match (pyRStrip s).data.getLast? with
                        | some c => chopPunct.contains c
                        | none => true))

/-- `fallback_reply_for_route` from `src/utils.py`. -/
def fallback_reply_for_route (route : String) : String :=
  let r := pyLower (pyStrip route)
  if r = "billing" then
    "I\x27m checking your billing details now—I\x27ll have an answer for you in just a moment."
  else if r = "retention" then
    "I\x27m pulling together some options that might work better for you—give me a moment."
  else if r = "cancel" then
    "I\x27ve got your request. One moment while I take care of that."
  else if r = "tech" then
    "I\x27m looking up the best steps for you—one moment."
  else if r = "end" then
    "Thanks for reaching out. We\x27re all set here; reach out anytime if something else comes up."
  else
    "I\x27m on it—one moment and I\x27ll get back to you."

/-! ### `src/utils.py`: identifier extraction

`extract_email_or_cust_id` runs two `re.search` calls:
`r"\bcust_\w+\b"` (case-insensitive) and then
`r"\b[\w.\-+]+@[\w.\-]+\.[a-zA-Z]{2,}\b"`.
They are modelled by direct leftmost-match scanners over the character list;
the greedy-with-backtracking behaviour of the email pattern reduces to:
maximal local-part run, a literal `@`, then the rightmost dot inside the
maximal domain run whose following alphabetic run has length at least two and
ends at a word boundary. -/

/-- `takeWordRun l` is the maximal leading run of word characters. -/
def takeWordRun (l : List Char) : List Char := l.takeWhile isWordChar

/-- Attempt the pattern `cust_\w+` (case-insensitive literal prefix) at the
head of `l`.  Returns the matched token (original casing preserved). -/
def custAt (l : List Char) : Option (List Char) :=
  match l with
  | c :: u :: s :: t :: und :: rest =>
    if (c = 'c' || c = 'C') && (u = 'u' || u = 'U') && (s = 's' || s = 'S') &&
       (t = 't' || t = 'T') && und = '_' then
      let run := takeWordRun rest
      if run.isEmpty then none else some ([c, u, s, t, und] ++ run)
    else none
  | _ => none

/-- Leftmost search for `\bcust_\w+\b`: scan every position whose preceding
character is not a word character (the `\b` before the word character `c`);
the trailing `\b` is automatic after a maximal `\w+` run. -/
def custSearchAux : Option Char → List Char → Option (List Char)
  | _, [] => none
  | prev, l@(c :: rest) =>
    let boundaryOk := match prev with
      | none => true
      | some p => !isWordChar p
    if boundaryOk then
      match custAt l with
      | some tok => some tok
      | none => custSearchAux (some c) rest
    else custSearchAux (some c) rest

/-- Leftmost match of the customer-id pattern in a string. -/
def custFindStr (s : String) : Option String :=
  (custSearchAux none s.data).map (fun l => ⟨l⟩)

/-- Character class of the email local part: `[\w.\-+]`. -/
def isLocalChar (c : Char) : Bool := isWordChar c || c = '.' || c = '-' || c = '+'

/-- Character class of the email domain: `[\w.\-]`. -/
def isDomChar (c : Char) : Bool := isWordChar c || c = '.' || c = '-'

/-- `[a-zA-Z]{2,}\b` starting at `suffix`: the maximal alphabetic run has
length at least 2 and the character after it (if any) is not a word
character. -/
def tldOk (suffix : List Char) : Bool :=
  let ar := suffix.takeWhile Char.isAlpha
  decide (2 ≤ ar.length) &&
  (match suffix.drop ar.length with
   | [] => true
   | c :: _ => !isWordChar c)

/-- Attempt the email pattern anchored at the head of `l` (`prev` is the
character before `l`, for the leading `\b`).  Mirrors the backtracking of
`[\w.\-]+\.[a-zA-Z]{2,}\b`: dots are tried from the rightmost one inside the
maximal domain run. -/
def emailAt (prev : Option Char) (l : List Char) : Option (List Char) :=
  let localRun := l.takeWhile isLocalChar
  if localRun.isEmpty then none
  else
    let firstWord := isWordChar (localRun.headD ' ')
    let prevWord := match prev with
      | none => false
      | some p => isWordChar p
    if firstWord = prevWord then none    -- `\b` requires exactly one side to be a word char
    else
      match l.drop localRun.length with
      | '@' :: dtail =>
        let domRun := dtail.takeWhile isDomChar
        match (List.range domRun.length).reverse.find?
            (fun k => decide (1 ≤ k) && decide (domRun.get? k = some '.') &&
                      tldOk (dtail.drop (k + 1))) with
        | some k =>
          let ar := (dtail.drop (k + 1)).takeWhile Char.isAlpha
          some (localRun ++ '@' :: dtail.take k ++ '.' :: ar)
        | none => none
      | _ => none

/-- Leftmost search for the email pattern. -/
def emailSearchAux : Option Char → List Char → Option (List Char)
  | _, [] => none
  | prev, l@(c :: rest) =>
    match emailAt prev l with
    | some tok => some tok
    | none => emailSearchAux (some c) rest

/-- Leftmost match of the email pattern in a string. -/
def emailFindStr (s : String) : Option String :=
  (emailSearchAux none s.data).map (fun l => ⟨l⟩)

/-- `extract_email_or_cust_id` from `src/utils.py`: empty input yields
nothing; otherwise strip, search for a `CUST_` id first, then for an email;
the matched group is stripped before being returned. -/
def extract_email_or_cust_id (raw : String) : Option String :=
  if raw = "" then none
  else
    let s := pyStrip raw
    match custFindStr s with
    | some m => some (pyStrip m)
    | none =>
      match emailFindStr s with
      | some m => some (pyStrip m)
      | none => none

/-! ### `src/tools.py`: the three capability tools -/

/-- A row of `customers.csv` as `csv.DictReader` yields it: an association
list from column name to cell value. -/
abbrev Customer : Type := List (String × String)

/-- `row.get(k) or ""` on a customer row. -/
def rowGetD (row : Customer) (k : String) : String :=
  match List.lookup k row with
  | some v => v
  | none => ""

/-- The dictionary returned by `get_customer_data`: the `found` flag, the
optional `message`, and (on success) the merged customer row. -/
structure LookupResult where
  found : Bool
  message : Option String
  row : Customer
deriving DecidableEq

/-- The id-lookup branch of `get_customer_data` (lines 48-54 of
`src/tools.py`): exact case-insensitive match on the `customer_id` column. -/
def idLookup (customers : List Customer) (raw : String) : LookupResult :=
  match customers.find? (fun row => pyStrip (rowGetD row "customer_id") |> pyLower |> (· = pyLower raw)) with
  | some row => ⟨true, none, row⟩
  | none => ⟨false, some ("No customer found with customer_id " ++ raw ++ "."), []⟩

/-- The email-lookup branch of `get_customer_data` (lines 56-61): exact
case-insensitive match on the `email` column. -/
def emailLookup (customers : List Customer) (raw : String) : LookupResult :=
  match customers.find? (fun row => pyStrip (rowGetD row "email") |> pyLower |> (· = pyLower raw)) with
  | some row => ⟨true, none, row⟩
  | none => ⟨false, some ("No customer found with email " ++ raw ++
      ". Valid examples: sarah.chen@email.com, jennifer.lee@email.com, or CUST_001."), []⟩

/-- The guidance message returned when the argument has neither an `@` nor
the `cust_` prefix. -/
def invalidLookupMsg : String :=
  "Invalid input: pass only an email (e.g. name@email.com) or customer_id (e.g. CUST_001). Do not pass the customer\x27s request or question text. If the customer has not given an email or ID yet, ask them for it."

/-- `get_customer_data` from `src/tools.py`, parameterised by the loaded
customer directory. -/
def get_customer_data (customers : List Customer) (email : String) : LookupResult :=
  let raw := pyStrip email
  if raw = "" then ⟨false, some "No email or customer_id provided.", []⟩
  else
    let raw := match extract_email_or_cust_id raw with
      | some lookup => lookup
      | none => raw
    let rawLower := pyLower raw
    if !containsSub raw "@" && !strStartsWith rawLower "cust_" then
      ⟨false, some invalidLookupMsg, []⟩
    else if strStartsWith rawLower "cust_" then idLookup customers raw
    else emailLookup customers raw

/-- `retention_rules.json` as loaded: top-level reason category to
(sub-key to offer list).  Offers are kept as opaque strings. -/
abbrev Rules : Type := List (String × List (String × List String))

/-- `REASON_MAP` from `src/tools.py`, in insertion order:
user-facing reason fragment to `(top_key, tier_key_suffix)`. -/
def REASON_MAP : List (String × String × Option String) :=
  [("financial_hardship", ("financial_hardship", none)),
   ("financial", ("financial_hardship", none)),
   ("money", ("financial_hardship", none)),
   ("afford", ("financial_hardship", none)),
   ("overheating", ("product_issues", some "overheating")),
   ("battery", ("product_issues", some "battery_issues")),
   ("battery_issues", ("product_issues", some "battery_issues")),
   ("product_issues", ("product_issues", some "overheating")),
   ("service_value", ("service_value", some "care_plus_premium")),
   ("value", ("service_value", some "care_plus_premium"))]

/-- `TIER_KEY` from `src/tools.py` as a partial map; `none` models
`tier not in TIER_KEY`. -/
def tierKeyOf (tier : String) : Option String :=
  if tier = "premium" then some "premium_customers"
  else if tier = "regular" then some "regular_customers"
  else if tier = "new" then some "new_customers"
  else none

/-- Python `str.replace` for a single-character pattern (the only shape the
source uses: `" " -> "_"` and `"_" -> ""`): substitute every occurrence. -/
def pyReplaceChar (s : String) (old : Char) (new : String) : String :=
  ⟨s.data.foldr (fun c acc => if c = old then new.data ++ acc else c :: acc) []⟩

/-- The normalised reason: trim, lowercase, spaces to underscores. -/
def reasonRaw (reason : String) : String :=
  pyReplaceChar (pyLower (pyStrip reason)) ' ' "_"

/-- The reason-resolution loop of `calculate_retention_offer`: first
`REASON_MAP` entry whose key occurs in the normalised reason (or in the
reason with underscores removed); default `financial_hardship`. -/
def resolveTop (rr : String) : String × Option String :=
  match REASON_MAP.find? (fun e =>
      containsSub rr e.1 || containsSub (pyReplaceChar rr '_' "") e.1) with
  | some e => e.2
  | none => ("financial_hardship", none)

/-- `rules[top].get(key, [])` with a missing `top` giving `[]`. -/
def ruleEntries (rules : Rules) (top key : String) : List String :=
  match List.lookup top rules with
  | some sub =>
    match List.lookup key sub with
    | some offers => offers
    | none => []
  | none => []

/-- Whether `top_key in rules`. -/
def hasTop (rules : Rules) (top : String) : Bool :=
  (List.lookup top rules).isSome

/-- The result dictionary of `calculate_retention_offer`.  `customer_tier`
and `reason` are `Option`s because the early-return dictionaries of the
source do not carry those keys. -/
structure OfferResult where
  offers : List String
  customer_tier : Option String
  reason : Option String
  message : Option String
deriving DecidableEq

/-- `calculate_retention_offer` from `src/tools.py`, parameterised by the
loaded rule table. -/
def calculate_retention_offer (customer_tier reason : String) (rules : Rules) : OfferResult :=
  let tier := pyLower (pyStrip customer_tier)
  let rr := reasonRaw reason
  match tierKeyOf tier with
  | none =>
    ⟨[], none, none, some ("Invalid customer_tier: " ++ customer_tier ++ ". Use premium, regular, or new.")⟩
  | some tier_key =>
    if rules.isEmpty then ⟨[], none, none, some "Retention rules not available."⟩
    else
      let ts := resolveTop rr
      let offers :=
        if ts.1 = "financial_hardship" && hasTop rules ts.1 then
          ruleEntries rules ts.1 tier_key
        else if ts.1 = "product_issues" && hasTop rules ts.1 then
          ruleEntries rules ts.1 (ts.2.getD "overheating")
        else if ts.1 = "service_value" && hasTop rules ts.1 then
          ruleEntries rules ts.1 (ts.2.getD "care_plus_premium")
        else []
      ⟨offers, some tier, some rr, none⟩

/-- The key the offers are read at, given the resolved (top, sub) pair and
the tier key: the tier key for `financial_hardship`, the sub-category
otherwise. -/
def resolvedKey (ts : String × Option String) (tier_key : String) : String :=
  if ts.1 = "financial_hardship" then tier_key
  else if ts.1 = "product_issues" then ts.2.getD "overheating"
  else ts.2.getD "care_plus_premium"

/-- Boolean list-subset test. -/
def listSubset (xs ys : List String) : Bool := xs.all (ys.contains ·)

/-- The result dictionary of `update_customer_status`. -/
structure StatusResult where
  success : Bool
  message : String
deriving DecidableEq

/-- `update_customer_status` from `src/tools.py`.  The wall clock enters as
the `now` parameter (the `datetime.now(tz=utc).isoformat()` string); the
status log file is threaded as a string of appended bytes.  The `OSError`
branch of the source reports a failure result; the model assumes a writable
log, which is the only case the checked claims quantify over. -/
def update_customer_status (now log customer_id action : String) : StatusResult × String :=
  let cid := pyStrip customer_id
  let act := pyStrip action
  if cid = "" || act = "" then
    (⟨false, "customer_id and action are required."⟩, log)
  else
    (⟨true, "Logged " ++ act ++ " for " ++ cid ++ "."⟩,
     log ++ now ++ "\t" ++ cid ++ "\t" ++ act ++ "\n")

/-- Number of newline characters in the log (each well-formed record ends in
exactly one, so this counts appended lines). -/
def countNl (s : String) : Nat := s.data.count '\n'

/-- Split a character list at every occurrence of `sep`; auxiliary:
returns the current (first) field and the remaining fields. -/
def splitChAux (sep : Char) : List Char → List Char × List (List Char)
  | [] => ([], [])
  | a :: as =>
    let r := splitChAux sep as
    if a = sep then ([], r.1 :: r.2) else (a :: r.1, r.2)

/-- Split a character list at every occurrence of `sep`. -/
def splitCh (sep : Char) (l : List Char) : List (List Char) :=
  (splitChAux sep l).1 :: (splitChAux sep l).2

/-- Parse one status-log record (without its trailing newline) into its
three tab-separated fields. -/
def parse3 (record : String) : Option (String × String × String) :=
  match splitCh '\t' record.data with
  | [a, b, c] => some (⟨a⟩, ⟨b⟩, ⟨c⟩)
  | _ => none

/-- A string usable as a status-log field: no tab, no newline. -/
def lineClean (s : String) : Bool := s.data.all (fun c => c ≠ '\t' && c ≠ '\n')

/-- The record `update_customer_status` appends, without the trailing
newline. -/
def statusRecord (now cid act : String) : String :=
  now ++ "\t" ++ cid ++ "\t" ++ act

/-! ### `src/graph.py`: message model

LangChain message content is `None`, a string, or a list of blocks (dicts
with `type`/`text` keys, or plain strings). -/

/-- One content block of a list-valued message content. -/
inductive Block
  | dictB (isTextType : Bool) (text? : Option String)
  | strB (s : String)
deriving DecidableEq

/-- Message content as the source handles it. -/
inductive PyContent
  | nothing
  | str (s : String)
  | blocks (bs : List Block)
deriving DecidableEq

/-- Python truthiness of a message content (`m.content` in a condition). -/
def pyTruthyContent : PyContent → Bool
  | .nothing => false
  | .str s => s ≠ ""
  | .blocks bs => !bs.isEmpty

/-- Truthiness of `b.get("text") if isinstance(b, dict) else b`
(the per-block test of the emptiness check at graph.py lines 315-322). -/
def blockValTruthy : Block → Bool
  | .dictB _ (some t) => t ≠ ""
  | .dictB _ none => false
  | .strB s => s ≠ ""

/-- The emptiness check of graph.py lines 315-322: no content, a
whitespace-only string, or a block list with no truthy block text. -/
def pyEmptyContent : PyContent → Bool
  | .nothing => true
  | .str s => pyStrip s = ""
  | .blocks bs => bs.all (fun b => !blockValTruthy b)

/-- The stricter check `fc and isinstance(fc, str) and fc.strip()` used by
the `end`-route synthesis branches (graph.py lines 189, 220, 245). -/
def nonemptyStrContent : PyContent → Bool
  | .str s => pyStrip s ≠ ""
  | _ => false

/-- A rendering standing in for Python's `repr` of a content block.  Only
feeds keyword searches and is never produced by real string content; no
checked property depends on its exact text. -/
def blockRepr : Block → String
  | .dictB _ (some t) => "\x7btext: " ++ t ++ "\x7d"
  | .dictB _ none => "\x7b\x7d"
  | .strB s => s

/-- Python `str(content)` on a message content. -/
def pyStrOfContent : PyContent → String
  | .str s => s
  | .nothing => "None"
  | .blocks bs => "[" ++ String.intercalate ", " (bs.map blockRepr) ++ "]"

/-- `extract_message_text` from `src/utils.py`: pull displayable text out of
a message content, repair truncation, then sanitize jargon. -/
def extract_message_text : PyContent → String
  | .nothing => ""
  | .str s => sanitize_internal_jargon (finishIfChopped (pyStrip s))
  | .blocks bs =>
    let parts := bs.filterMap (fun b => match b with
      | .dictB true (some t) => some (pyStrip t)
      | .strB s => some (pyStrip s)
      | _ => none)
    sanitize_internal_jargon (finishIfChopped
      (String.intercalate "\n" (parts.filter (· ≠ ""))))

/-- A tool call requested by the model: one of the five tools the graph ever
binds, with the arguments the source reads off `tc["args"]`. -/
inductive ToolCall
  | setRoute (route : Option String)
  | getCustomerData (email : String)
  | calcOffer (tier reason : String)
  | updateStatus (cid action : String)
  | policySearch (q : String)
deriving DecidableEq

/-- `tc.get("name")`. -/
def ToolCall.name : ToolCall → String
  | .setRoute _ => "set_route"
  | .getCustomerData _ => "get_customer_data"
  | .calcOffer _ _ => "calculate_retention_offer"
  | .updateStatus _ _ => "update_customer_status"
  | .policySearch _ => "policy_search"

/-- The structured value a tool returns (kept structured, as the loop's own
`isinstance(tm.content, dict)` checks assume). -/
inductive ToolContent
  | lookup (r : LookupResult)
  | offers (r : OfferResult)
  | status (r : StatusResult)
  | text (s : String)
deriving DecidableEq

/-- A conversation message: system / human / assistant (with requested tool
calls) / tool result. -/
inductive Msg
  | system (content : String)
  | human (content : PyContent)
  | ai (content : PyContent) (toolCalls : List ToolCall)
  | toolMsg (name : String) (content : ToolContent)
deriving DecidableEq

/-- One LLM response: text content plus requested tool calls. -/
structure Response where
  content : PyContent
  toolCalls : List ToolCall
deriving DecidableEq

/-- External collaborators of one `_invoke_agent` run.  Each LLM call site
is an oracle giving the outcome after the source's own retry policy
(`.error` = both attempts failed, which the source turns into a raised
`RuntimeError` on the main call and on the reply-after-route call, and into
a caught fallback in the `end`-route branches). -/
structure Oracles where
  main : Nat → Except Unit Response
  synth : Except Unit PyContent
  rewrite : Except Unit PyContent

/-- The process-wide environment: loaded data, the retriever-backed policy
search (total, as `policy_search` catches its own errors), and the wall
clock reading used for status-log lines. -/
structure Env where
  customers : List Customer
  rules : Rules
  search : String → String
  now : String

/-! ### `src/graph.py`: the `_invoke_agent` loop -/

/-- `max_tool_rounds` (graph.py line 118). -/
def maxToolRounds : Nat := 6

/-- The mutable loop variables of `_invoke_agent`. -/
structure LoopState where
  messages : List Msg
  customerData : Option LookupResult
  nextRoute : Option String
  hasStatusUpdate : Bool
  toolRounds : Nat
  statusLog : String
deriving DecidableEq

/-- `(args.get("route") or "end").strip().lower()` (graph.py line 149). -/
def routeFromArg (r : Option String) : String := pyLower (pyStrip (pyOr r "end"))

/-- The per-round `set_route` capture: last `set_route` call wins. -/
def captureRoute (nr : Option String) (tcs : List ToolCall) : Option String :=
  tcs.foldl (fun acc tc => match tc with
    | .setRoute r => some (routeFromArg r)
    | _ => acc) nr

/-- Whether the round requested `update_customer_status` (graph.py 150-151). -/
def callsUpdateStatus (tcs : List ToolCall) : Bool :=
  tcs.any (fun tc => tc.name = "update_customer_status")

/-- `only_set_route` (graph.py line 169). -/
def onlySetRoute (tcs : List ToolCall) : Bool :=
  tcs.all (fun tc => pyLower (pyStrip tc.name) = "set_route")

/-- Execute one tool call (the `ToolNode` dispatch), threading the status
log. -/
def execTool (env : Env) (log : String) : ToolCall → Msg × String
  | .setRoute r => (.toolMsg "set_route" (.text ("Route set to: " ++ r.getD "")), log)
  | .getCustomerData e =>
    (.toolMsg "get_customer_data" (.lookup (get_customer_data env.customers e)), log)
  | .calcOffer t r =>
    (.toolMsg "calculate_retention_offer" (.offers (calculate_retention_offer t r env.rules)), log)
  | .updateStatus cid act =>
    let res := update_customer_status env.now log cid act
    (.toolMsg "update_customer_status" (.status res.1), res.2)
  | .policySearch q => (.toolMsg "policy_search" (.text (env.search q)), log)

/-- Execute a round's tool calls in order. -/
def execTools (env : Env) (log : String) : List ToolCall → List Msg × String
  | [] => ([], log)
  | tc :: tcs =>
    let m := execTool env log tc
    let ms := execTools env m.2 tcs
    (m.1 :: ms.1, ms.2)

/-- The profile-persistence scan (graph.py lines 158-167): the first tool
result that is a dict with `found is True` replaces `customer_data_out`. -/
def persistFound (cd : Option LookupResult) (tms : List Msg) : Option LookupResult :=
  match tms.find? (fun m => match m with
    | .toolMsg _ (.lookup r) => r.found
    | _ => false) with
  | some (.toolMsg _ (.lookup r)) => some r
  | _ => cd

/-- `(next_route or "end").strip().lower()` (graph.py lines 172, 335). -/
def routeHintOf (nr : Option String) : String := pyLower (pyStrip (pyOr nr "end"))

/-- The latest truthy user message as the `end`-route synthesis branches
read it (graph.py lines 197-201): lowered only when the content is a
string. -/
def lastUserSynth (msgs : List Msg) : String :=
  match msgs.reverse.find? (fun m => match m with
    | .human c => pyTruthyContent c
    | _ => false) with
  | some (.human (.str s)) => pyLower s
  | some (.human c) => pyStrOfContent c
  | _ => ""

/-- The latest truthy user message, lowered in both content cases (graph.py
lines 260-264 and 399-403). -/
def lastUserLower (msgs : List Msg) : String :=
  match msgs.reverse.find? (fun m => match m with
    | .human c => pyTruthyContent c
    | _ => false) with
  | some (.human (.str s)) => pyLower s
  | some (.human c) => pyLower (pyStrOfContent c)
  | _ => ""

/-- Does any of the keywords occur in the text? -/
def anySub (hay : String) (needles : List String) : Bool :=
  needles.any (containsSub hay ·)

/-- `retention_follow_ups` of the `end` branch (graph.py line 202). -/
def retentionFollowupsEnd : List String :=
  ["payment pause", "cheaper option", "cheaper plan", "basic plan", "replacement involve", "upgrade"]

/-- `cancel_words` of the `end` branch (graph.py line 228). -/
def cancelWordsEnd : List String :=
  ["cancel", "return", "get rid", "can\x27t afford", "cant afford"]

/-- `retention_follow_ups` of the billing branch (graph.py line 265). -/
def retentionFollowupsBilling : List String :=
  ["payment pause", "cheaper option", "cheaper plan", "basic plan"]

/-- Which of the five reply-synthesis code paths the loop enters once a
round's tool calls were solely `set_route`. -/
inductive SynthBranch
  | statusConfirm
  | endFollowup
  | endCancelWords
  | endFixed
  | afterRoute
deriving DecidableEq

/-- The branch selected by the conditional structure of graph.py
lines 171-294, as a function of the loop variables. -/
def branchFor (msgs : List Msg) (nr : Option String) (hsu : Bool) : SynthBranch :=
  if routeHintOf nr = "end" then
    if hsu then .statusConfirm
    else if anySub (lastUserSynth msgs) retentionFollowupsEnd then .endFollowup
    else if anySub (lastUserSynth msgs) cancelWordsEnd then .endCancelWords
    else .endFixed
  else .afterRoute

/-- The canned confirmation of the `statusConfirm` branch (graph.py
lines 193, 195). -/
def processedCanned : String :=
  "Your request has been processed. Is there anything else I can help with?"

/-- The result of a completed synthesis: the new message list, the possibly
rewritten route (the billing retention-follow-up case forces `end`), the
branch taken, and whether the fixed fallback text was used (recorded for the
statements; the source has no such flag). -/
structure SynthOut where
  messages : List Msg
  nextRoute : Option String
  branch : SynthBranch
  usedFallback : Bool
deriving DecidableEq

/-- The reply-synthesis block of `_invoke_agent` (graph.py lines 171-328),
entered when a round's tool calls were solely the routing tool.  `synthO` is
the outcome of the one constrained LLM call the entered branch makes;
`.error` models the raised `RuntimeError` of the reply-after-route call
(whose own retry already failed) and the caught exception of the
`end`-route branches.  The choice among the three billing system prompts
only changes prompt text, which no checked property observes. -/
def synthesizeReply (msgs : List Msg) (nr : Option String) (hsu : Bool)
    (_cdo : Option LookupResult) (synthO : Except Unit PyContent) : Except Unit SynthOut :=
  let route_hint := routeHintOf nr
  if route_hint = "end" then
    if hsu then
      match synthO with
      | .ok fc =>
        if nonemptyStrContent fc then
          .ok ⟨msgs ++ [.ai fc []], nr, .statusConfirm, false⟩
        else .ok ⟨msgs ++ [.ai (.str processedCanned) []], nr, .statusConfirm, true⟩
      | .error _ => .ok ⟨msgs ++ [.ai (.str processedCanned) []], nr, .statusConfirm, true⟩
    else
      let last_user := lastUserSynth msgs
      if anySub last_user retentionFollowupsEnd then
        match synthO with
        | .ok fc =>
          if nonemptyStrContent fc then
            .ok ⟨msgs ++ [.ai fc []], nr, .endFollowup, false⟩
          else .ok ⟨msgs ++ [.ai (.str (fallback_reply_for_route "retention")) []], nr, .endFollowup, true⟩
        | .error _ =>
          .ok ⟨msgs ++ [.ai (.str (fallback_reply_for_route "retention")) []], nr, .endFollowup, true⟩
      else if anySub last_user cancelWordsEnd then
        match synthO with
        | .ok fc =>
          if nonemptyStrContent fc then
            .ok ⟨msgs ++ [.ai fc []], nr, .endCancelWords, false⟩
          else .ok ⟨msgs ++ [.ai (.str (fallback_reply_for_route "end")) []], nr, .endCancelWords, true⟩
        | .error _ =>
          .ok ⟨msgs ++ [.ai (.str (fallback_reply_for_route "end")) []], nr, .endCancelWords, true⟩
      else
        .ok ⟨msgs ++ [.ai (.str (fallback_reply_for_route "end")) []], nr, .endFixed, true⟩
  else
    let nr' := if route_hint = "billing" && anySub (lastUserLower msgs) retentionFollowupsBilling
               then some "end" else nr
    match synthO with
    | .error _ => .error ()
    | .ok fc =>
      let isEmptyOut := pyEmptyContent fc
      let content := if isEmptyOut then PyContent.str (fallback_reply_for_route route_hint) else fc
      .ok ⟨msgs ++ [.ai content []], nr', .afterRoute, isEmptyOut⟩

/-- How the loop exited: a plain text reply, a synthesized reply, or the
round cap. -/
inductive ExitKind
  | direct
  | synth (b : SynthBranch) (usedFallback : Bool)
  | maxRounds
deriving DecidableEq

/-- Loop outcome.  `llmError` is the raised `RuntimeError`; `fuelOut` is the
structural-fuel marker, proved unreachable from the real entry point. -/
inductive LoopOut
  | ok (st : LoopState) (ek : ExitKind)
  | llmError
  | fuelOut
deriving DecidableEq

/-- One-iteration outcome. -/
inductive StepOut
  | halt (out : LoopOut)
  | next (st : LoopState)
deriving DecidableEq

/-- The tool-execution part of one loop iteration (graph.py lines 145-168):
capture the route, flag status updates, run the tool node, append the
assistant message and the tool results, persist any found profile, and
increment the round counter. -/
def stepCore (env : Env) (resp : Response) (st : LoopState) : LoopState :=
  { messages := st.messages ++ [.ai resp.content resp.toolCalls] ++
      (execTools env st.statusLog resp.toolCalls).1,
    customerData := persistFound st.customerData (execTools env st.statusLog resp.toolCalls).1,
    nextRoute := captureRoute st.nextRoute resp.toolCalls,
    hasStatusUpdate := st.hasStatusUpdate || callsUpdateStatus resp.toolCalls,
    toolRounds := st.toolRounds + 1,
    statusLog := (execTools env st.statusLog resp.toolCalls).2 }

/-- One iteration of the `while True` loop of `_invoke_agent` (graph.py
lines 121-330), given the round's LLM response: process tool calls, execute
them, persist any found profile, then either finish (no tool calls /
route-only round / round cap) or continue. -/
def step (env : Env) (synthO : Except Unit PyContent) (resp : Response) (st : LoopState) : StepOut :=
  if resp.toolCalls.isEmpty then
    .halt (.ok { st with messages := st.messages ++ [.ai resp.content resp.toolCalls] } .direct)
  else
    let st' := stepCore env resp st
    if onlySetRoute resp.toolCalls then
      match synthesizeReply st'.messages st'.nextRoute st'.hasStatusUpdate st'.customerData synthO with
      | .error _ => .halt .llmError
      | .ok so =>
        .halt (.ok { st' with messages := so.messages, nextRoute := so.nextRoute }
                 (.synth so.branch so.usedFallback))
    else if maxToolRounds ≤ st'.toolRounds then .halt (.ok st' .maxRounds)
    else .next st'

/-- The `while True` loop, by structural recursion on a fuel that the real
entry point sets to `maxToolRounds + 1` (sufficient: proved below). -/
def runLoopF (env : Env) (o : Oracles) : Nat → Nat → LoopState → LoopOut
  | 0, _, _ => .fuelOut
  | fuel + 1, i, st =>
    match o.main i with
    | .error _ => .llmError
    | .ok resp =>
      match step env o.synth resp st with
      | .halt out => out
      | .next st' => runLoopF env o fuel (i + 1) st'

/-- Flatten a human message content for the pre-fetch identifier scan
(graph.py lines 88-94). -/
def flattenHumanContent : PyContent → String
  | .str s => s
  | .blocks bs => String.intercalate " " (bs.map (fun b => match b with
      | .dictB _ (some t) => t
      | .dictB ty none => blockRepr (.dictB ty none)
      | .strB s => s))
  | .nothing => ""

/-- The pre-fetch scan of `_invoke_agent` (graph.py lines 85-109): walk the
user messages in order; on the first extractable identifier whose lookup
returns a found profile, stop with that profile; otherwise keep scanning. -/
def prefetchScan (env : Env) : List Msg → Option LookupResult
  | [] => none
  | .human c :: rest =>
    if pyTruthyContent c then
      match extract_email_or_cust_id (flattenHumanContent c) with
      | some ex =>
        let r := get_customer_data env.customers ex
        if r.found then some r else prefetchScan env rest
      | none => prefetchScan env rest
    else prefetchScan env rest
  | _ :: rest => prefetchScan env rest

/-- A rendering standing in for Python's `str(result)` on a profile dict.
Only its `"Customer profile:"` prefix is ever inspected. -/
def profileRepr (r : LookupResult) : String :=
  "found=" ++ (if r.found then "True" else "False") ++
  (match r.message with
   | some m => " message=" ++ m
   | none => "") ++
  " " ++ String.intercalate " " (r.row.map (fun kv => kv.1 ++ "=" ++ kv.2))

/-- Is the message the synthetic `Customer profile:` system message? -/
def custProfilePrefixed : Msg → Bool
  | .system c => strStartsWith c "Customer profile:"
  | _ => false

/-- The pre-fetch block (graph.py lines 83-111): when no found profile is in
state and there are messages, scan for an identifier; on success inject the
synthetic system message and record the profile. -/
def prefetch (env : Env) (msgs : List Msg) (cd : Option LookupResult) :
    List Msg × Option LookupResult :=
  if (match cd with | some r => !r.found | none => true) && !msgs.isEmpty then
    match prefetchScan env msgs with
    | some r => (.system ("Customer profile: " ++ profileRepr r) :: msgs, some r)
    | none => (msgs, cd)
  else (msgs, cd)

/-- The re-injection step (graph.py lines 113-115): if a profile dict is
held and the first message is not already the synthetic system message,
prepend it. -/
def injectProfile (msgs : List Msg) (cd : Option LookupResult) : List Msg :=
  match cd with
  | some r =>
    if !msgs.isEmpty &&
       !(match msgs.head? with
         | some m => custProfilePrefixed m
         | none => false) then
      .system ("Customer profile: " ++ profileRepr r) :: msgs
    else msgs
  | none => msgs

/-- Index of the last assistant message with truthy content (graph.py
lines 339-342). -/
def findLastAiIdx : List Msg → Option Nat
  | [] => none
  | m :: ms =>
    match findLastAiIdx ms with
    | some i => some (i + 1)
    | none =>
      match m with
      | .ai c _ => if pyTruthyContent c then some 0 else none
      | _ => none

/-- The fixed email-request suffix (graph.py lines 361, 364). -/
def emailSuffix : String := " Could you share your email so I can look up your account?"

/-- Content of the assistant message at an index. -/
def aiContentAt (msgs : List Msg) (i : Nat) : PyContent :=
  match msgs.get? i with
  | some (.ai c _) => c
  | _ => .nothing

/-- The post-loop billing repair (graph.py lines 333-365): when the resolved
route is billing and no profile is known, rewrite the last assistant message
so it asks for an email, falling back to a fixed suffix. -/
def billingRepair (rewriteO : Except Unit PyContent) (ls : LoopState) : List Msg :=
  let hasProfile := match ls.customerData with
    | some r => r.found
    | none => false
  if routeHintOf ls.nextRoute = "billing" && !hasProfile then
    match findLastAiIdx ls.messages with
    | some i =>
      let existing := extract_message_text (aiContentAt ls.messages i)
      if existing ≠ "" && !containsSub (pyLower existing) "email" then
        match rewriteO with
        | .ok rc =>
          let rewritten := if pyTruthyContent rc then extract_message_text rc else ""
          if rewritten ≠ "" && containsSub (pyLower rewritten) "email" then
            ls.messages.set i (.ai (.str rewritten) [])
          else ls.messages.set i (.ai (.str (existing ++ emailSuffix)) [])
        | .error _ => ls.messages.set i (.ai (.str (existing ++ emailSuffix)) [])
      else ls.messages
    | none => ls.messages
  else ls.messages

/-- The state dict `_invoke_agent` returns (timing accumulator omitted; the
status-log file is carried as part of the observable world). -/
structure AgentRes where
  messages : List Msg
  customerData : Option LookupResult
  nextRoute : Option String
  statusLog : String
deriving DecidableEq

/-- Outcome of one `_invoke_agent` run. -/
inductive AgentOut
  | ok (res : AgentRes) (ek : ExitKind)
  | llmError
  | fuelOut
deriving DecidableEq

/-- `_invoke_agent` from `src/graph.py`: pre-fetch, profile injection, the
bounded tool loop, and the post-loop billing repair. -/
def invokeAgent (env : Env) (o : Oracles) (msgs : List Msg)
    (cd : Option LookupResult) (nr : Option String) (log : String) : AgentOut :=
  let pf := prefetch env msgs cd
  let msgs2 := injectProfile pf.1 pf.2
  let st0 : LoopState := ⟨msgs2, pf.2, nr, false, 0, log⟩
  match runLoopF env o (maxToolRounds + 1) 0 st0 with
  | .fuelOut => .fuelOut
  | .llmError => .llmError
  | .ok ls ek =>
    .ok ⟨billingRepair o.rewrite ls, ls.customerData,
         (match ls.nextRoute with
          | none => nr
          | some "" => nr
          | some r => some r),
         ls.statusLog⟩ ek

/-! ### `src/graph.py`: the Greeter conditional edge -/

/-- Route constants from `src/state.py`. -/
def ROUTE_RETENTION : String := "retention"

/-- Route constant from `src/state.py`. -/
def ROUTE_CANCEL : String := "cancel"

/-- `device_words` (graph.py line 404). -/
def deviceWords : List String :=
  ["overheat", "broken", "crack", "won\x27t charge", "not charging", "screen flicker", "battery drain"]

/-- `cancel_words` of the router (graph.py line 405). -/
def cancelWordsRouter : List String := ["cancel", "return", "get rid"]

/-- `_route_after_greeter` from `src/graph.py`: map the resolved route to
the next node, after the device+cancel keyword override. -/
def route_after_greeter (msgs : List Msg) (nr : Option String) : String :=
  let r := routeHintOf nr
  let last_user := lastUserLower msgs
  let r := if anySub last_user deviceWords && anySub last_user cancelWordsRouter &&
              r ≠ ROUTE_RETENTION then ROUTE_RETENTION else r
  if r = ROUTE_RETENTION then "problem_solver"
  else if r = ROUTE_CANCEL then "processor"
  else "end"

/-! ## Claim C5 — the presentation sanitizer

The jargon replacement alone is idempotent, and the combined sanitizer never
alters a no-trigger string; but the truncation repair appends a further
ellipsis when re-applied to a long sanitized string (an appended `…` is not
in the sentence-final punctuation set), so the combined sanitizer is not
idempotent on all strings. -/

theorem sanitize_eq_self_or_reply (s : String) :
    sanitize_internal_jargon s = s ∨ sanitize_internal_jargon s = jargonReply := by
  unfold sanitize_internal_jargon
  dsimp only
  split_ifs with h1 h2 h3
  · exact Or.inl h1.symm
  · exact Or.inr rfl
  · exact Or.inr rfl
  · exact Or.inl rfl

theorem sanitize_jargonReply : sanitize_internal_jargon jargonReply = jargonReply := by decide

theorem sanitize_idem (s : String) :
    sanitize_internal_jargon (sanitize_internal_jargon s) = sanitize_internal_jargon s := by
  rcases sanitize_eq_self_or_reply s with h | h
  · simp only [h]
  · simp only [h, sanitize_jargonReply]

theorem chop_of_not_trunc (s : String) (h : truncTrig s = false) :
    finishIfChopped s = s := by
  unfold truncTrig at h
  unfold finishIfChopped
  dsimp only
  split_ifs with h1 h2
  · rfl
  · exfalso
    simp only [Bool.not_eq_true] at h1
    rw [h1, h2] at h
    exact absurd h (by decide)
  · rfl

theorem sanitize_of_not_trig (s : String) (h : jargonTrig s = false) :
    sanitize_internal_jargon s = s := by
  unfold jargonTrig at h
  dsimp only at h
  unfold sanitize_internal_jargon
  dsimp only
  split_ifs with h1 h2 h3
  · exact h1.symm
  · simp [h2] at h
  · simp [h3] at h
  · rfl

/-- C5 (amended): the presentation sanitizer never alters a string that
matches none of its trigger patterns, and applying it twice equals applying
it once whenever the once-sanitized string does not itself trigger the
truncation repair (in particular whenever it is shorter than 200 characters
or ends in sentence-final punctuation).  The unconditional idempotence the
original claim states fails: see the counterexample. -/
theorem C5_sanitizer_idem (s : String) :
    (jargonTrig s = false → truncTrig s = false → sanitizeDisplay s = s) ∧
    (truncTrig (sanitizeDisplay s) = false →
      sanitizeDisplay (sanitizeDisplay s) = sanitizeDisplay s) := by
  constructor
  · intro h1 h2
    unfold sanitizeDisplay
    rw [chop_of_not_trunc s h2, sanitize_of_not_trig s h1]
  · intro h
    show sanitize_internal_jargon (finishIfChopped (sanitizeDisplay s)) = sanitizeDisplay s
    rw [chop_of_not_trunc _ h]
    show sanitize_internal_jargon (sanitize_internal_jargon (finishIfChopped s)) = _
    rw [sanitize_idem]
    rfl

set_option maxRecDepth 8192 in
/-- C5 counterexample: on 200 unterminated characters the sanitizer appends
an ellipsis, and a second application appends another one (`…` is not in the
sentence-final punctuation set), so the sanitizer is not idempotent. -/
theorem C5_counterexample :
    sanitizeDisplay (sanitizeDisplay (String.mk (List.replicate 200 'a'))) ≠
      sanitizeDisplay (String.mk (List.replicate 200 'a')) := by decide

/-- C5 witness: a concrete short clean string, unchanged and idempotent. -/
theorem C5_witness :
    sanitizeDisplay "All good." = "All good." ∧
    sanitizeDisplay (sanitizeDisplay "All good.") = sanitizeDisplay "All good." :=
  ⟨(C5_sanitizer_idem "All good.").1 (by decide) (by decide),
   (C5_sanitizer_idem "All good.").2 (by decide)⟩

/-! ## Helper lemmas on the string primitives -/

theorem dropWhile_head_not (l : List Char) (c : Char)
    (h : (l.dropWhile isPyWs).head? = some c) : isPyWs c = false := by
  induction l with
  | nil => simp at h
  | cons a t ih =>
    rw [List.dropWhile_cons] at h
    by_cases hp : isPyWs a
    · rw [if_pos hp] at h
      exact ih h
    · rw [if_neg hp] at h
      simp only [List.head?_cons, Option.some.injEq] at h
      rw [← h]
      exact Bool.not_eq_true _ ▸ hp

theorem dropWhile_ws_idem (l : List Char) :
    (l.dropWhile isPyWs).dropWhile isPyWs = l.dropWhile isPyWs := by
  cases h : l.dropWhile isPyWs with
  | nil => rfl
  | cons a t =>
    have ha : isPyWs a = false := dropWhile_head_not l a (by rw [h]; rfl)
    rw [List.dropWhile_cons, ha]
    simp

theorem dropWhile_ws_getLast (l : List Char) (h : l.dropWhile isPyWs ≠ []) :
    (l.dropWhile isPyWs).getLast? = l.getLast? := by
  induction l with
  | nil => simp at h
  | cons a t ih =>
    rw [List.dropWhile_cons] at h ⊢
    by_cases hp : isPyWs a
    · rw [if_pos hp] at h ⊢
      cases t with
      | nil => simp at h
      | cons b t' =>
        rw [ih h]
        exact List.getLast?_cons_cons.symm
    · rw [if_neg hp]

theorem pyStripList_head (l : List Char) (c : Char)
    (h : (pyStripList l).head? = some c) : isPyWs c = false := by
  unfold pyStripList at h
  rw [List.head?_reverse] at h
  have hne : List.dropWhile isPyWs (List.dropWhile isPyWs l).reverse ≠ [] := by
    intro he
    rw [he] at h
    simp at h
  rw [dropWhile_ws_getLast _ hne, List.getLast?_reverse] at h
  exact dropWhile_head_not l c h

theorem pyStripList_idem (l : List Char) : pyStripList (pyStripList l) = pyStripList l := by
  have h1 : (pyStripList l).dropWhile isPyWs = pyStripList l := by
    cases hy : pyStripList l with
    | nil => rfl
    | cons a t =>
      have ha : isPyWs a = false := pyStripList_head l a (by rw [hy]; rfl)
      rw [List.dropWhile_cons, ha]
      simp
  have h2 : (pyStripList l).reverse = List.dropWhile isPyWs (List.dropWhile isPyWs l).reverse := by
    unfold pyStripList
    rw [List.reverse_reverse]
  show ((((pyStripList l).dropWhile isPyWs).reverse).dropWhile isPyWs).reverse = pyStripList l
  rw [h1, h2, dropWhile_ws_idem]
  rfl

theorem pyStrip_idem (s : String) : pyStrip (pyStrip s) = pyStrip s := by
  show String.mk (pyStripList (pyStripList s.data)) = _
  rw [pyStripList_idem]
  rfl

/-! ## Claim C6 — lookup without an extractable token

The code skips the directory only when the (possibly replaced) argument
lacks both an `@` and the `cust_` prefix; an input like `"a@b"` has no
extractable token yet still reaches the directory scan.  The claim as
stated is therefore false; the amended claim adds the literal-string
condition the source actually tests. -/

/-- C6 counterexample: `"a@b"` yields no extractable token, yet the lookup
consults the directory — with a directory holding that email it even
returns `found = true` instead of the claimed `found = false` guidance. -/
theorem C6_counterexample :
    extract_email_or_cust_id "a@b" = none ∧
    (get_customer_data [[("customer_id", "CUST_9"), ("email", "a@b")]] "a@b").found = true ∧
    (get_customer_data [] "a@b").message =
      some "No customer found with email a@b. Valid examples: sarah.chen@email.com, jennifer.lee@email.com, or CUST_001." := by
  refine ⟨by decide, by decide, by decide⟩

/-- C6 (amended): if no token is extractable from the trimmed input AND the
trimmed input neither contains `@` nor starts (case-insensitively) with
`cust_`, the lookup returns `found = false` with a guidance message and
never consults the directory: the result is the same for every directory. -/
theorem C6_no_token_guidance (s : String) (cs cs' : List Customer)
    (h1 : extract_email_or_cust_id (pyStrip s) = none)
    (h2 : containsSub (pyStrip s) "@" = false)
    (h3 : strStartsWith (pyLower (pyStrip s)) "cust_" = false) :
    (get_customer_data cs s).found = false ∧
    (get_customer_data cs s).message.isSome = true ∧
    get_customer_data cs s = get_customer_data cs' s := by
  unfold get_customer_data
  dsimp only
  rw [h1]
  by_cases h0 : pyStrip s = ""
  · simp [h0]
  · simp [h0, h2, h3]

/-- C6 witness: a sentence with no identifier gets the guidance result,
independent of the directory. -/
theorem C6_witness :
    (get_customer_data [[("customer_id", "CUST_001"), ("email", "a@b.com")]] "please help me").found = false ∧
    (get_customer_data [[("customer_id", "CUST_001"), ("email", "a@b.com")]] "please help me").message.isSome = true ∧
    get_customer_data [[("customer_id", "CUST_001"), ("email", "a@b.com")]] "please help me" =
      get_customer_data [] "please help me" :=
  C6_no_token_guidance "please help me" [[("customer_id", "CUST_001"), ("email", "a@b.com")]] []
    (by decide) (by decide) (by decide)

/-! ## Claim C10 — CUST_ identifiers take priority over emails -/

theorem word_not_ws (c : Char) (h : isWordChar c = true) : isPyWs c = false := by
  cases hws : isPyWs c
  · rfl
  · exfalso
    simp only [isPyWs, Bool.or_eq_true, decide_eq_true_eq] at hws
    rcases hws with ((rfl | rfl) | rfl) | rfl <;> exact absurd h (by decide)

theorem dropWhile_of_all_false (p : Char → Bool) (l : List Char)
    (hall : ∀ c ∈ l, p c = false) : l.dropWhile p = l := by
  induction l with
  | nil => rfl
  | cons a t ih =>
    rw [List.dropWhile_cons, hall a (List.mem_cons_self a t)]
    simp only [Bool.false_eq_true, if_false]

theorem pyStripList_of_words (l : List Char) (hall : ∀ c ∈ l, isWordChar c = true) :
    pyStripList l = l := by
  unfold pyStripList
  rw [dropWhile_of_all_false _ _ (fun c hc => word_not_ws c (hall c hc)),
      dropWhile_of_all_false _ _ (fun c hc => word_not_ws c (hall c (List.mem_reverse.mp hc))),
      List.reverse_reverse]

theorem infix_at_of_words (l : List Char) (hall : ∀ c ∈ l, isWordChar c = true) :
    isInfixB ['@'] l = false := by
  induction l with
  | nil => rfl
  | cons a t ih =>
    have ha : ('@' = a) = False := by
      by_cases he : '@' = a
      · exact absurd (hall a (List.mem_cons_self a t)) (he ▸ by decide)
      · simp [he]
    simp only [isInfixB, isPrefixB, Bool.or_eq_false_iff]
    refine ⟨by simp [ha], ih (fun c hc => hall c (List.mem_cons_of_mem a hc))⟩

theorem mem_takeWordRun (l : List Char) (c : Char) (h : c ∈ takeWordRun l) :
    isWordChar c = true := by
  unfold takeWordRun at h
  induction l with
  | nil => simp at h
  | cons a t ih =>
    rw [List.takeWhile_cons] at h
    by_cases hp : isWordChar a
    · rw [if_pos hp] at h
      rcases List.mem_cons.mp h with rfl | h
      · exact hp
      · exact ih h
    · rw [if_neg hp] at h
      simp at h

theorem custAt_shape (l tok : List Char) (h : custAt l = some tok) :
    (∀ c ∈ tok, isWordChar c = true) ∧ isPrefixB "cust_".data (tok.map Char.toLower) = true := by
  cases l with
  | nil => exact Option.noConfusion h
  | cons c l1 =>
  cases l1 with
  | nil => exact Option.noConfusion h
  | cons u l2 =>
  cases l2 with
  | nil => exact Option.noConfusion h
  | cons s' l3 =>
  cases l3 with
  | nil => exact Option.noConfusion h
  | cons t' l4 =>
  cases l4 with
  | nil => exact Option.noConfusion h
  | cons und rest =>
  unfold custAt at h
  dsimp only at h
  split at h
  case isFalse hc => exact Option.noConfusion h
  case isTrue hc =>
  split at h
  case isTrue hrun => exact Option.noConfusion h
  case isFalse hrun =>
    simp only [Option.some.injEq] at h
    subst h
    simp only [Bool.and_eq_true, Bool.or_eq_true, decide_eq_true_eq] at hc
    obtain ⟨⟨⟨⟨hc1, hc2⟩, hc3⟩, hc4⟩, hc5⟩ := hc
    constructor
    · intro x hx
      rcases List.mem_append.mp hx with hx | hx
      · simp only [List.mem_cons, List.not_mem_nil, or_false] at hx
        rcases hx with rfl | rfl | rfl | rfl | rfl
        · rcases hc1 with rfl | rfl <;> decide
        · rcases hc2 with rfl | rfl <;> decide
        · rcases hc3 with rfl | rfl <;> decide
        · rcases hc4 with rfl | rfl <;> decide
        · rw [hc5]; decide
      · exact mem_takeWordRun rest x hx
    · subst hc5
      have hd : "cust_".data = ['c', 'u', 's', 't', '_'] := rfl
      rw [hd]
      simp only [List.map_append, List.map_cons]
      rcases hc1 with rfl | rfl <;> rcases hc2 with rfl | rfl <;>
        rcases hc3 with rfl | rfl <;> rcases hc4 with rfl | rfl <;>
        simp [isPrefixB]

theorem custSearchAux_shape (l : List Char) : ∀ (prev : Option Char) (tok : List Char),
    custSearchAux prev l = some tok →
    (∀ c ∈ tok, isWordChar c = true) ∧ isPrefixB "cust_".data (tok.map Char.toLower) = true := by
  induction l with
  | nil => intro prev tok h; exact Option.noConfusion h
  | cons a rest ih =>
    intro prev tok h
    unfold custSearchAux at h
    dsimp only at h
    cases prev with
    | none =>
      rw [if_pos rfl] at h
      cases hca : custAt (a :: rest) with
      | some d =>
        rw [hca] at h
        simp only [Option.some.injEq] at h
        exact h ▸ custAt_shape _ d hca
      | none =>
        rw [hca] at h
        exact ih (some a) tok h
    | some p =>
      by_cases hw : (!isWordChar p) = true
      · rw [if_pos hw] at h
        cases hca : custAt (a :: rest) with
        | some d =>
          rw [hca] at h
          simp only [Option.some.injEq] at h
          exact h ▸ custAt_shape _ d hca
        | none =>
          rw [hca] at h
          exact ih (some a) tok h
      · rw [if_neg hw] at h
        exact ih (some a) tok h

/-- Facts about a matched customer-id token: it is whitespace-free (so
stripping it is the identity), contains no `@`, and its lowercase form
starts with `cust_`. -/
theorem custFind_facts (s tok : String) (h : custFindStr s = some tok) :
    pyStrip tok = tok ∧ containsSub tok "@" = false ∧
    strStartsWith (pyLower tok) "cust_" = true := by
  unfold custFindStr at h
  cases haux : custSearchAux none s.data with
  | none => rw [haux] at h; exact Option.noConfusion h
  | some d =>
    rw [haux] at h
    simp only [Option.map_some', Option.some.injEq] at h
    obtain ⟨hw, hp⟩ := custSearchAux_shape s.data none d haux
    subst h
    refine ⟨?_, ?_, ?_⟩
    · show String.mk (pyStripList d) = _
      rw [pyStripList_of_words d hw]
    · show isInfixB "@".data d = false
      have h1 : "@".data = ['@'] := rfl
      rw [h1]
      exact infix_at_of_words d hw
    · exact hp

/-- C10: when the input text contains a CUST_ token, extraction returns that
token — regardless of any email also present, in particular one occurring
earlier — and the customer lookup therefore takes the id-lookup branch on
that token; the email pattern is consulted only when no CUST_ token is
found. -/
theorem C10_cust_priority (raw tok : String) (cs : List Customer) (h0 : raw ≠ "") :
    (custFindStr (pyStrip raw) = some tok →
       extract_email_or_cust_id raw = some (pyStrip tok) ∧
       get_customer_data cs raw = idLookup cs (pyStrip tok)) ∧
    (custFindStr (pyStrip raw) = none →
       extract_email_or_cust_id raw = (emailFindStr (pyStrip raw)).map pyStrip) := by
  constructor
  · intro h1
    obtain ⟨hs, hat, hsw⟩ := custFind_facts _ _ h1
    have hextract : extract_email_or_cust_id raw = some (pyStrip tok) := by
      unfold extract_email_or_cust_id
      rw [if_neg h0]
      dsimp only
      rw [h1]
    refine ⟨hextract, ?_⟩
    have hraw_ne : pyStrip raw ≠ "" := by
      intro he
      rw [he] at h1
      exact Option.noConfusion h1
    have hex2 : extract_email_or_cust_id (pyStrip raw) = some (pyStrip tok) := by
      unfold extract_email_or_cust_id
      rw [if_neg hraw_ne]
      dsimp only
      rw [pyStrip_idem, h1]
    unfold get_customer_data
    dsimp only
    rw [if_neg hraw_ne, hex2, hs, hat, hsw]
    simp
  · intro h1
    unfold extract_email_or_cust_id
    rw [if_neg h0]
    dsimp only
    rw [h1]
    cases emailFindStr (pyStrip raw) <;> simp

/-- C10 witness: the email appears first in the text, yet the CUST_ id is
selected and the lookup runs on it. -/
theorem C10_witness :
    extract_email_or_cust_id "reach me at a@b.com or CUST_77" = some (pyStrip "CUST_77") ∧
    get_customer_data [[("customer_id", "CUST_77"), ("email", "a@b.com")]]
        "reach me at a@b.com or CUST_77" =
      idLookup [[("customer_id", "CUST_77"), ("email", "a@b.com")]] (pyStrip "CUST_77") :=
  (C10_cust_priority "reach me at a@b.com or CUST_77" "CUST_77"
      [[("customer_id", "CUST_77"), ("email", "a@b.com")]] (by decide)).1 (by decide)

/-! ## Claims C7 and C8 — the offer calculation -/

theorem listSubset_nil (ys : List String) : listSubset [] ys = true := rfl

theorem listSubset_refl (xs : List String) : listSubset xs xs = true := by
  simp only [listSubset, List.all_eq_true]
  intro x hx
  exact List.elem_eq_true_of_mem hx

theorem resolveTop_mem (rr : String) :
    (resolveTop rr).1 = "financial_hardship" ∨ (resolveTop rr).1 = "product_issues" ∨
    (resolveTop rr).1 = "service_value" := by
  unfold resolveTop
  cases hf : REASON_MAP.find? (fun e =>
      containsSub rr e.1 || containsSub (pyReplaceChar rr '_' "") e.1) with
  | none => left; rfl
  | some e =>
    have hm : e ∈ REASON_MAP := List.mem_of_find?_eq_some hf
    simp only [REASON_MAP, List.mem_cons, List.not_mem_nil, or_false] at hm
    rcases hm with rfl | rfl | rfl | rfl | rfl | rfl | rfl | rfl | rfl | rfl <;> simp

/-- The offers field always equals the rule table read at the resolved
(category, key) when the category is present, and is empty otherwise. -/
theorem calc_offers_eq (ct reason : String) (rules : Rules) (tk : String)
    (htk : tierKeyOf (pyLower (pyStrip ct)) = some tk) :
    (calculate_retention_offer ct reason rules).offers =
      (if hasTop rules (resolveTop (reasonRaw reason)).1 then
        ruleEntries rules (resolveTop (reasonRaw reason)).1
          (resolvedKey (resolveTop (reasonRaw reason)) tk)
      else []) := by
  unfold calculate_retention_offer
  dsimp only
  rw [htk]
  dsimp only
  by_cases hre : rules.isEmpty = true
  · rw [if_pos hre]
    have : rules = [] := List.isEmpty_iff.mp hre
    subst this
    simp [hasTop]
  · rw [if_neg hre]
    dsimp only
    rcases resolveTop_mem (reasonRaw reason) with ht | ht | ht <;>
      rw [ht] <;>
      by_cases hh : hasTop rules (resolveTop (reasonRaw reason)).1 = true <;>
      simp_all [resolvedKey, ht]

/-- C7: for every tier normalizing to premium/regular/new and every reason,
the returned offers are a subset of the rule table's entries at the resolved
(category, tier-or-subcategory) key, and an absent combination yields the
empty list (the function is total, so no error is ever raised). -/
theorem C7_offers_subset (ct reason : String) (rules : Rules)
    (h : (tierKeyOf (pyLower (pyStrip ct))).isSome = true) :
    listSubset (calculate_retention_offer ct reason rules).offers
      (ruleEntries rules (resolveTop (reasonRaw reason)).1
        (resolvedKey (resolveTop (reasonRaw reason))
          ((tierKeyOf (pyLower (pyStrip ct))).getD ""))) = true ∧
    (ruleEntries rules (resolveTop (reasonRaw reason)).1
        (resolvedKey (resolveTop (reasonRaw reason))
          ((tierKeyOf (pyLower (pyStrip ct))).getD "")) = [] →
      (calculate_retention_offer ct reason rules).offers = []) := by
  obtain ⟨tk, htk⟩ := Option.isSome_iff_exists.mp h
  rw [htk]
  simp only [Option.getD_some]
  rw [calc_offers_eq ct reason rules tk htk]
  by_cases hh : hasTop rules (resolveTop (reasonRaw reason)).1 = true
  · rw [if_pos hh]
    exact ⟨listSubset_refl _, fun he => he⟩
  · rw [if_neg hh]
    exact ⟨listSubset_nil _, fun _ => rfl⟩

/-- A concrete rule table used by the offer-calculation witnesses. -/
def offerRulesW : Rules :=
  [("financial_hardship", [("premium_customers", ["pause50"]), ("regular_customers", ["pause25"])]),
   ("product_issues", [("overheating", ["replacement"]), ("battery_issues", ["battery swap"])])]

/-- C7 witness: a premium/overheating request returns exactly the configured
entry, which is a subset of the table row. -/
theorem C7_witness :
    (calculate_retention_offer "Premium" "overheating" offerRulesW).offers = ["replacement"] ∧
    (listSubset (calculate_retention_offer "Premium" "overheating" offerRulesW).offers
      (ruleEntries offerRulesW (resolveTop (reasonRaw "overheating")).1
        (resolvedKey (resolveTop (reasonRaw "overheating"))
          ((tierKeyOf (pyLower (pyStrip "Premium"))).getD ""))) = true ∧
    (ruleEntries offerRulesW (resolveTop (reasonRaw "overheating")).1
        (resolvedKey (resolveTop (reasonRaw "overheating"))
          ((tierKeyOf (pyLower (pyStrip "Premium"))).getD "")) = [] →
      (calculate_retention_offer "Premium" "overheating" offerRulesW).offers = [])) :=
  ⟨by decide, C7_offers_subset "Premium" "overheating" offerRulesW (by decide)⟩

/-- C8 counterexample: an invalid tier yields a result without the
`customer_tier` and `reason` keys, refuting "the result always includes the
resolved tier and reason". -/
theorem C8_counterexample :
    (calculate_retention_offer "gold" "overheating" offerRulesW).customer_tier = none ∧
    (calculate_retention_offer "gold" "overheating" offerRulesW).reason = none ∧
    (calculate_retention_offer "gold" "overheating" offerRulesW).offers = [] ∧
    (calculate_retention_offer "gold" "overheating" offerRulesW).message.isSome = true := by
  decide

/-- C8 (amended): the result carries the resolved tier and reason exactly on
the valid path (tier normalizes to premium/regular/new and rules are
loaded); an invalid tier yields empty offers plus the diagnostic message and
no tier/reason fields; missing rules also yield empty offers.  The function
is total, so no input raises. -/
theorem C8_result_fields (ct reason : String) (rules : Rules) :
    ((tierKeyOf (pyLower (pyStrip ct))).isSome = true → rules.isEmpty = false →
      (calculate_retention_offer ct reason rules).customer_tier = some (pyLower (pyStrip ct)) ∧
      (calculate_retention_offer ct reason rules).reason = some (reasonRaw reason)) ∧
    ((tierKeyOf (pyLower (pyStrip ct))).isSome = false →
      calculate_retention_offer ct reason rules =
        ⟨[], none, none, some ("Invalid customer_tier: " ++ ct ++ ". Use premium, regular, or new.")⟩) ∧
    (rules.isEmpty = true → (calculate_retention_offer ct reason rules).offers = []) := by
  refine ⟨?_, ?_, ?_⟩
  · intro h1 h2
    obtain ⟨tk, htk⟩ := Option.isSome_iff_exists.mp h1
    unfold calculate_retention_offer
    dsimp only
    rw [htk]
    dsimp only
    rw [if_neg (by simp [h2])]
    exact ⟨rfl, rfl⟩
  · intro h1
    cases htk : tierKeyOf (pyLower (pyStrip ct)) with
    | some tk => rw [htk] at h1; exact absurd h1 (by simp)
    | none =>
      unfold calculate_retention_offer
      dsimp only
      rw [htk]
  · intro h1
    cases htk : tierKeyOf (pyLower (pyStrip ct)) with
    | none =>
      unfold calculate_retention_offer
      dsimp only
      rw [htk]
    | some tk =>
      unfold calculate_retention_offer
      dsimp only
      rw [htk]
      dsimp only
      rw [if_pos h1]

/-- C8 witness: on the valid path the resolved tier and reason are carried
in the result. -/
theorem C8_witness :
    (calculate_retention_offer "Premium " "battery issues" offerRulesW).customer_tier =
      some (pyLower (pyStrip "Premium ")) ∧
    (calculate_retention_offer "Premium " "battery issues" offerRulesW).reason =
      some (reasonRaw "battery issues") :=
  (C8_result_fields "Premium " "battery issues" offerRulesW).1 (by decide) (by decide)

/-! ## Claim C9 — the status log round-trip -/

theorem string_data_ext (a b : String) (h : a.data = b.data) : a = b := by
  cases a
  cases b
  exact congrArg String.mk h

theorem strData_append (a b : String) : (a ++ b).data = a.data ++ b.data := rfl

theorem countNl_append (a b : String) : countNl (a ++ b) = countNl a + countNl b := by
  unfold countNl
  rw [strData_append, List.count_append]

theorem lineClean_spec (s : String) (h : lineClean s = true) :
    ∀ x ∈ s.data, x ≠ '\t' ∧ x ≠ '\n' := by
  simp only [lineClean, List.all_eq_true, Bool.and_eq_true, decide_eq_true_eq] at h
  exact h

theorem countNl_zero_of_clean (s : String) (h : lineClean s = true) : countNl s = 0 := by
  unfold countNl
  rw [List.count_eq_zero]
  intro hmem
  exact (lineClean_spec s h '\n' hmem).2 rfl

theorem countNl_record (now cid act : String) (h1 : lineClean now = true)
    (h2 : lineClean cid = true) (h3 : lineClean act = true) :
    countNl (statusRecord now cid act) = 0 := by
  unfold statusRecord
  rw [countNl_append, countNl_append, countNl_append, countNl_append,
      countNl_zero_of_clean now h1, countNl_zero_of_clean cid h2, countNl_zero_of_clean act h3]
  decide

theorem splitChAux_no_sep (sep : Char) (l : List Char) (h : ∀ c ∈ l, c ≠ sep) :
    splitChAux sep l = (l, []) := by
  induction l with
  | nil => rfl
  | cons a t ih =>
    simp only [splitChAux]
    rw [ih (fun c hc => h c (List.mem_cons_of_mem a hc))]
    simp [h a (List.mem_cons_self a t)]

theorem splitChAux_append (sep : Char) (a rest : List Char) (h : ∀ c ∈ a, c ≠ sep) :
    splitChAux sep (a ++ sep :: rest) =
      (a, (splitChAux sep rest).1 :: (splitChAux sep rest).2) := by
  induction a with
  | nil =>
    show splitChAux sep (sep :: rest) = _
    simp only [splitChAux]
    simp
  | cons x xs ih =>
    show splitChAux sep (x :: (xs ++ sep :: rest)) = _
    simp only [splitChAux]
    rw [ih (fun c hc => h c (List.mem_cons_of_mem x hc))]
    simp [h x (List.mem_cons_self x xs)]

theorem splitCh_three (sep : Char) (a b c : List Char)
    (ha : ∀ x ∈ a, x ≠ sep) (hb : ∀ x ∈ b, x ≠ sep) (hc : ∀ x ∈ c, x ≠ sep) :
    splitCh sep (a ++ sep :: (b ++ sep :: c)) = [a, b, c] := by
  unfold splitCh
  rw [splitChAux_append sep a _ ha, splitChAux_append sep b _ hb, splitChAux_no_sep sep c hc]

theorem record_data (now cid act : String) :
    (statusRecord now cid act).data = now.data ++ '\t' :: (cid.data ++ '\t' :: act.data) := by
  unfold statusRecord
  rw [strData_append, strData_append, strData_append]
  have ht : ("\t" : String).data = ['\t'] := rfl
  rw [ht]
  simp

theorem parse3_record (now cid act : String) (h1 : lineClean now = true)
    (h2 : lineClean cid = true) (h3 : lineClean act = true) :
    parse3 (statusRecord now cid act) = some (now, cid, act) := by
  unfold parse3
  rw [record_data, splitCh_three '\t' now.data cid.data act.data
    (fun x hx => (lineClean_spec now h1 x hx).1)
    (fun x hx => (lineClean_spec cid h2 x hx).1)
    (fun x hx => (lineClean_spec act h3 x hx).1)]

theorem update_log_eq (now log cid act : String)
    (h1 : pyStrip cid ≠ "") (h2 : pyStrip act ≠ "") :
    (update_customer_status now log cid act).2 =
      log ++ statusRecord now (pyStrip cid) (pyStrip act) ++ "\n" ∧
    (update_customer_status now log cid act).1.success = true := by
  unfold update_customer_status
  rw [if_neg (by simp [h1, h2])]
  refine ⟨?_, rfl⟩
  apply string_data_ext
  simp [strData_append, statusRecord]

theorem update_countNl (now log cid act : String)
    (h1 : pyStrip cid ≠ "") (h2 : pyStrip act ≠ "")
    (h3 : lineClean now = true) (h4 : lineClean (pyStrip cid) = true)
    (h5 : lineClean (pyStrip act) = true) :
    countNl (update_customer_status now log cid act).2 = countNl log + 1 := by
  rw [(update_log_eq now log cid act h1 h2).1, countNl_append, countNl_append,
      countNl_record now (pyStrip cid) (pyStrip act) h3 h4 h5]
  have h6 : countNl "\n" = 1 := by decide
  rw [h6]

/-- C9 counterexample: an action that is non-empty after trimming but
contains an interior newline makes one call append TWO log lines (and a
tab-containing field would not be parseable as three fields), refuting the
unrestricted round-trip claim. -/
theorem C9_counterexample :
    (update_customer_status "2026-01-01T00:00:00+00:00" "" "CUST_001" "a\nb").1.success = true ∧
    countNl (update_customer_status "2026-01-01T00:00:00+00:00" "" "CUST_001" "a\nb").2 = 2 := by
  refine ⟨by decide, by decide⟩

/-- C9 (amended): for every (customerId, action) pair non-empty after
trimming whose trimmed fields (like the ISO timestamp) contain no tab and no
newline, one call appends exactly the record
`<timestamp>\t<customerId>\t<action>\n`, increasing the line count by one,
returns success=true, and the appended record parses back into its three
fields; N such calls append exactly N lines; a pair empty after trimming
returns success=false with the validation message and leaves the log
unchanged. -/
theorem C9_log_roundtrip (now log cid act : String) (pairs : List (String × String)) :
    (pyStrip cid = "" ∨ pyStrip act = "" →
      update_customer_status now log cid act =
        (⟨false, "customer_id and action are required."⟩, log)) ∧
    (pyStrip cid ≠ "" → pyStrip act ≠ "" →
      lineClean now = true → lineClean (pyStrip cid) = true → lineClean (pyStrip act) = true →
      (update_customer_status now log cid act).2 =
          log ++ statusRecord now (pyStrip cid) (pyStrip act) ++ "\n" ∧
        (update_customer_status now log cid act).1.success = true ∧
        countNl (update_customer_status now log cid act).2 = countNl log + 1 ∧
        parse3 (statusRecord now (pyStrip cid) (pyStrip act)) =
          some (now, pyStrip cid, pyStrip act)) ∧
    ((∀ p ∈ pairs, pyStrip p.1 ≠ "" ∧ pyStrip p.2 ≠ "" ∧
        lineClean (pyStrip p.1) = true ∧ lineClean (pyStrip p.2) = true) →
      lineClean now = true →
      countNl (pairs.foldl (fun lg p => (update_customer_status now lg p.1 p.2).2) log) =
        countNl log + pairs.length) := by
  refine ⟨?_, ?_, ?_⟩
  · intro h
    unfold update_customer_status
    rw [if_pos (by rcases h with h | h <;> simp [h])]
  · intro h1 h2 h3 h4 h5
    exact ⟨(update_log_eq now log cid act h1 h2).1, (update_log_eq now log cid act h1 h2).2,
      update_countNl now log cid act h1 h2 h3 h4 h5,
      parse3_record now (pyStrip cid) (pyStrip act) h3 h4 h5⟩
  · intro hp hnow
    revert hp
    induction pairs generalizing log with
    | nil => intro _; simp
    | cons p ps ih =>
      intro hp
      simp only [List.foldl_cons, List.length_cons]
      obtain ⟨hp1, hp2, hp3, hp4⟩ := hp p (List.mem_cons_self p ps)
      rw [ih ((update_customer_status now log p.1 p.2).2)
            (fun q hq => hp q (List.mem_cons_of_mem p hq)),
          update_countNl now log p.1 p.2 hp1 hp2 hnow hp3 hp4]
      omega

/-- C9 witness: one valid call appends one parseable record; two valid calls
append two lines; an empty action leaves the log unchanged. -/
theorem C9_witness :
    ((update_customer_status "2026-01-01T00:00:00+00:00" "old\n" " CUST_001 " "cancellation").2 =
        "old\n" ++ statusRecord "2026-01-01T00:00:00+00:00" (pyStrip " CUST_001 ")
          (pyStrip "cancellation") ++ "\n" ∧
      (update_customer_status "2026-01-01T00:00:00+00:00" "old\n" " CUST_001 " "cancellation").1.success = true ∧
      countNl (update_customer_status "2026-01-01T00:00:00+00:00" "old\n" " CUST_001 " "cancellation").2 =
        countNl "old\n" + 1 ∧
      parse3 (statusRecord "2026-01-01T00:00:00+00:00" (pyStrip " CUST_001 ") (pyStrip "cancellation")) =
        some ("2026-01-01T00:00:00+00:00", pyStrip " CUST_001 ", pyStrip "cancellation")) ∧
    countNl ([("CUST_001", "pause"), ("CUST_002", "downgrade")].foldl
        (fun lg p => (update_customer_status "2026-01-01T00:00:00+00:00" lg p.1 p.2).2) "") =
      countNl "" + 2 ∧
    update_customer_status "2026-01-01T00:00:00+00:00" "keep" "CUST_001" "   " =
      (⟨false, "customer_id and action are required."⟩, "keep") :=
  ⟨(C9_log_roundtrip "2026-01-01T00:00:00+00:00" "old\n" " CUST_001 " "cancellation" []).2.1
      (by decide) (by decide) (by decide) (by decide) (by decide),
   (C9_log_roundtrip "2026-01-01T00:00:00+00:00" ""  "x" "y"
        [("CUST_001", "pause"), ("CUST_002", "downgrade")]).2.2
      (by decide) (by decide),
   (C9_log_roundtrip "2026-01-01T00:00:00+00:00" "keep" "CUST_001" "   " []).1 (by decide)⟩

/-! ## Claim C2 — the Greeter device+cancel override -/

/-- C2: whenever the latest user message contains both a device-fault
keyword and a cancel-intent keyword, `_route_after_greeter` dispatches to
the Problem Solver node (the override forces retention when the resolved
route was anything else, and a resolved retention route maps there
already). -/
theorem C2_device_cancel_override (msgs : List Msg) (nr : Option String)
    (h1 : anySub (lastUserLower msgs) deviceWords = true)
    (h2 : anySub (lastUserLower msgs) cancelWordsRouter = true) :
    route_after_greeter msgs nr = "problem_solver" := by
  unfold route_after_greeter
  dsimp only
  rw [h1, h2]
  by_cases hr : routeHintOf nr = ROUTE_RETENTION
  · simp [hr]
  · simp [hr]

/-- C2 witness: a device complaint plus cancellation intent forces the
Problem Solver dispatch even though the model chose `end`. -/
theorem C2_witness :
    route_after_greeter [.human (.str "My phone is overheating and I want to CANCEL everything")]
      (some "end") = "problem_solver" :=
  C2_device_cancel_override
    [.human (.str "My phone is overheating and I want to CANCEL everything")] (some "end")
    (by decide) (by decide)

/-! ## Claim C1 — the bounded tool loop -/

/-- Is the last message a tool result? (The max-rounds exit leaves the
history ending in the round's tool results, with no synthesized reply.) -/
def lastIsToolMsg (msgs : List Msg) : Bool :=
  match msgs.getLast? with
  | some (.toolMsg _ _) => true
  | _ => false

theorem execTool_shape (env : Env) (log : String) (tc : ToolCall) :
    ∃ n c, (execTool env log tc).1 = .toolMsg n c := by
  cases tc <;> exact ⟨_, _, rfl⟩

theorem execTools_ne_nil (env : Env) (log : String) (tcs : List ToolCall)
    (h : tcs ≠ []) : (execTools env log tcs).1 ≠ [] := by
  cases tcs with
  | nil => exact absurd rfl h
  | cons tc ts => simp [execTools]

theorem execTools_members (env : Env) : ∀ (tcs : List ToolCall) (log : String) (m : Msg),
    m ∈ (execTools env log tcs).1 → ∃ n c, m = .toolMsg n c := by
  intro tcs
  induction tcs with
  | nil => intro log m h; simp [execTools] at h
  | cons tc ts ih =>
    intro log m h
    simp only [execTools] at h
    rcases List.mem_cons.mp h with rfl | h
    · exact execTool_shape env log tc
    · exact ih _ m h

theorem lastIsToolMsg_stepCore (env : Env) (resp : Response) (st : LoopState)
    (h : resp.toolCalls ≠ []) : lastIsToolMsg (stepCore env resp st).messages = true := by
  unfold lastIsToolMsg stepCore
  dsimp only
  rw [List.getLast?_append]
  cases hl : (execTools env st.statusLog resp.toolCalls).1.getLast? with
  | none =>
    exact absurd (List.getLast?_eq_none_iff.mp hl)
      (execTools_ne_nil env st.statusLog resp.toolCalls h)
  | some m =>
    obtain ⟨n, c, rfl⟩ := execTools_members env resp.toolCalls st.statusLog m
      (List.mem_of_getLast?_eq_some hl)
    rfl

theorem step_cases (env : Env) (so : Except Unit PyContent) (resp : Response) (st : LoopState) :
    (∃ ls ek, step env so resp st = .halt (.ok ls ek) ∧
       (ls.toolRounds = st.toolRounds ∨ ls.toolRounds = st.toolRounds + 1) ∧
       (ek = .maxRounds → ls.toolRounds = st.toolRounds + 1 ∧ maxToolRounds ≤ ls.toolRounds ∧
          lastIsToolMsg ls.messages = true)) ∨
    step env so resp st = .halt .llmError ∨
    (∃ st', step env so resp st = .next st' ∧ st'.toolRounds = st.toolRounds + 1 ∧
       st'.toolRounds < maxToolRounds) := by
  unfold step
  by_cases he : resp.toolCalls.isEmpty = true
  · rw [if_pos he]
    exact Or.inl ⟨_, _, rfl, Or.inl rfl, fun h => nomatch h⟩
  · rw [if_neg he]
    dsimp only
    have hne : resp.toolCalls ≠ [] := fun hh => he (by simp [hh])
    by_cases ho : onlySetRoute resp.toolCalls = true
    · rw [if_pos ho]
      cases hsyn : synthesizeReply (stepCore env resp st).messages (stepCore env resp st).nextRoute
          (stepCore env resp st).hasStatusUpdate (stepCore env resp st).customerData so with
      | error e =>
        right; left; rfl
      | ok sout =>
        left
        exact ⟨_, _, rfl, Or.inr rfl, fun h => nomatch h⟩
    · rw [if_neg ho]
      by_cases hm : maxToolRounds ≤ (stepCore env resp st).toolRounds
      · rw [if_pos hm]
        exact Or.inl ⟨_, _, rfl, Or.inr rfl,
          fun _ => ⟨rfl, hm, lastIsToolMsg_stepCore env resp st hne⟩⟩
      · rw [if_neg hm]
        exact Or.inr (Or.inr ⟨_, rfl, rfl, by omega⟩)

theorem runLoopF_bound (env : Env) (o : Oracles) : ∀ (fuel i : Nat) (st : LoopState),
    st.toolRounds < maxToolRounds → maxToolRounds - st.toolRounds ≤ fuel →
    runLoopF env o fuel i st ≠ .fuelOut ∧
    (∀ ls ek, runLoopF env o fuel i st = .ok ls ek →
      ls.toolRounds ≤ maxToolRounds ∧
      (ek = .maxRounds → ls.toolRounds = maxToolRounds ∧ lastIsToolMsg ls.messages = true)) := by
  intro fuel
  induction fuel with
  | zero =>
    intro i st h1 h2
    exfalso
    omega
  | succ fuel ih =>
    intro i st h1 h2
    simp only [runLoopF]
    cases hm : o.main i with
    | error e =>
      constructor
      · intro h
        exact nomatch h
      · intro ls ek h
        exact nomatch h
    | ok resp =>
      dsimp only
      rcases step_cases env o.synth resp st with
        ⟨ls0, ek0, hs, hr, hmax⟩ | hs | ⟨st', hs, hr, hlt⟩ <;> rw [hs]
      · constructor
        · intro h
          exact nomatch h
        · intro ls ek h
          obtain ⟨rfl, rfl⟩ : ls0 = ls ∧ ek0 = ek := by
            injection h with ha hb
            exact ⟨ha, hb⟩
          constructor
          · rcases hr with h | h <;> omega
          · intro hek
            obtain ⟨ha, hb, hc⟩ := hmax hek
            exact ⟨by omega, hc⟩
      · constructor
        · intro h
          exact nomatch h
        · intro ls ek h
          exact nomatch h
      · exact ih (i + 1) st' (by omega) (by omega)

/-- The round count of a completed loop run. -/
def loopOutRounds : LoopOut → Option Nat
  | .ok ls _ => some ls.toolRounds
  | _ => none

/-- The exit kind of a completed loop run. -/
def loopOutExit : LoopOut → Option ExitKind
  | .ok _ ek => some ek
  | _ => none

/-- A minimal concrete environment for the loop scenarios. -/
def envC1 : Env := ⟨[], [], fun _ => "policy unavailable", "2026-01-01T00:00:00+00:00"⟩

/-- A model that performs a non-routing tool call for five rounds and then
routes: the sixth round is route-only, so synthesis runs at round six. -/
def oC1 : Oracles :=
  ⟨fun i => if i < 5 then .ok ⟨.nothing, [.getCustomerData "nobody"]⟩
            else .ok ⟨.nothing, [.setRoute (some "end")]⟩,
   .ok .nothing, .ok .nothing⟩

/-- A model that never stops calling a non-routing tool. -/
def oMaxC1 : Oracles :=
  ⟨fun _ => .ok ⟨.nothing, [.getCustomerData "nobody"]⟩, .ok .nothing, .ok .nothing⟩

/-- The loop state at entry: one user message, no profile, round zero. -/
def stC1 : LoopState := ⟨[.human (.str "hi")], none, none, false, 0, ""⟩

set_option maxRecDepth 8192 in
/-- C1 counterexample: when rounds one to five call a non-routing tool and
round six is route-only, the loop exits at round counter 6 WITH a
synthesized reply appended — not "with the accumulated history (no
additional synthesis)" as the claim states for every sequence of model
responses. -/
theorem C1_counterexample :
    loopOutRounds (runLoopF envC1 oC1 (maxToolRounds + 1) 0 stC1) = some 6 ∧
    loopOutExit (runLoopF envC1 oC1 (maxToolRounds + 1) 0 stC1) =
      some (.synth .endFixed true) := by
  refine ⟨by decide, by decide⟩

/-- C1 (amended): the loop executes at most 6 tool-exchange rounds and
terminates for every sequence of model responses (the structural fuel
`maxToolRounds + 1` used by `invokeAgent` is never exhausted); when it exits
because the round cap was reached without another exit condition, the round
counter is exactly 6 and the history ends in the round's tool results with
no synthesized reply.  (If the sixth round is route-only, the loop instead
exits through reply synthesis at counter 6 — see the counterexample.) -/
theorem C1_loop_round_cap (env : Env) (o : Oracles) (i : Nat) (st : LoopState)
    (h : st.toolRounds = 0) :
    runLoopF env o (maxToolRounds + 1) i st ≠ .fuelOut ∧
    (∀ ls ek, runLoopF env o (maxToolRounds + 1) i st = .ok ls ek →
      ls.toolRounds ≤ maxToolRounds ∧
      (ek = .maxRounds → ls.toolRounds = maxToolRounds ∧ lastIsToolMsg ls.messages = true)) ∧
    (∀ msgs cd nr log, invokeAgent env o msgs cd nr log ≠ .fuelOut) := by
  have hb := runLoopF_bound env o (maxToolRounds + 1) i st (by rw [h]; decide) (by omega)
  refine ⟨hb.1, hb.2, ?_⟩
  intro msgs cd nr log
  unfold invokeAgent
  dsimp only
  split
  · next heq =>
      exact absurd heq
        ((runLoopF_bound env o (maxToolRounds + 1) 0 _ (by dsimp only; decide)
          (by dsimp only; decide)).1)
  · simp
  · simp

set_option maxRecDepth 8192 in
/-- C1 witness: the bound holds on a concrete run, and a model that never
stops calling tools is cut off at exactly 6 rounds with the history ending
in tool results. -/
theorem C1_witness :
    stC1.toolRounds = 0 ∧
    runLoopF envC1 oC1 (maxToolRounds + 1) 0 stC1 ≠ .fuelOut ∧
    loopOutRounds (runLoopF envC1 oMaxC1 (maxToolRounds + 1) 0 stC1) = some 6 ∧
    loopOutExit (runLoopF envC1 oMaxC1 (maxToolRounds + 1) 0 stC1) = some .maxRounds :=
  ⟨rfl, (C1_loop_round_cap envC1 oC1 0 stC1 rfl).1, by decide, by decide⟩

/-! ## Claim C3 — profile monotonicity -/

/-- Whether an optional profile is a found one. -/
def foundOf : Option LookupResult → Bool
  | some r => r.found
  | none => false

theorem persistFound_found (cd : Option LookupResult) (tms : List Msg)
    (h : foundOf cd = true) : foundOf (persistFound cd tms) = true := by
  unfold persistFound
  cases hf : tms.find? (fun m => match m with
    | .toolMsg _ (.lookup r) => r.found
    | _ => false) with
  | none => exact h
  | some m =>
    have hp := List.find?_some hf
    cases m with
    | toolMsg n c =>
      cases c with
      | lookup r => exact hp
      | offers r => exact absurd hp (by simp)
      | status r => exact absurd hp (by simp)
      | text s => exact absurd hp (by simp)
    | system c => exact absurd hp (by simp)
    | human c => exact absurd hp (by simp)
    | ai c tcs => exact absurd hp (by simp)

theorem step_found (env : Env) (so : Except Unit PyContent) (resp : Response) (st : LoopState)
    (h : foundOf st.customerData = true) :
    (∀ st', step env so resp st = .next st' → foundOf st'.customerData = true) ∧
    (∀ ls ek, step env so resp st = .halt (.ok ls ek) → foundOf ls.customerData = true) := by
  have hcore : foundOf (stepCore env resp st).customerData = true :=
    persistFound_found st.customerData _ h
  unfold step
  by_cases he : resp.toolCalls.isEmpty = true
  · rw [if_pos he]
    constructor
    · intro st' hst
      exact nomatch hst
    · intro ls ek hst
      injection hst with h1
      injection h1 with h2
      rw [← h2]
      exact h
  · rw [if_neg he]
    dsimp only
    by_cases ho : onlySetRoute resp.toolCalls = true
    · rw [if_pos ho]
      cases hsyn : synthesizeReply (stepCore env resp st).messages (stepCore env resp st).nextRoute
          (stepCore env resp st).hasStatusUpdate (stepCore env resp st).customerData so with
      | error e =>
        constructor
        · intro st' hst
          exact nomatch hst
        · intro ls ek hst
          exact nomatch hst
      | ok sout =>
        constructor
        · intro st' hst
          exact nomatch hst
        · intro ls ek hst
          injection hst with h1
          injection h1 with h2
          rw [← h2]
          exact hcore
    · rw [if_neg ho]
      by_cases hm : maxToolRounds ≤ (stepCore env resp st).toolRounds
      · rw [if_pos hm]
        constructor
        · intro st' hst
          exact nomatch hst
        · intro ls ek hst
          injection hst with h1
          injection h1 with h2
          rw [← h2]
          exact hcore
      · rw [if_neg hm]
        constructor
        · intro st' hst
          injection hst with h1
          rw [← h1]
          exact hcore
        · intro ls ek hst
          exact nomatch hst

theorem runLoopF_found (env : Env) (o : Oracles) : ∀ (fuel i : Nat) (st : LoopState),
    foundOf st.customerData = true →
    ∀ ls ek, runLoopF env o fuel i st = .ok ls ek → foundOf ls.customerData = true := by
  intro fuel
  induction fuel with
  | zero =>
    intro i st h ls ek hr
    exact nomatch hr
  | succ fuel ih =>
    intro i st h ls ek hr
    rw [runLoopF] at hr
    cases hm : o.main i with
    | error e =>
      rw [hm] at hr
      exact nomatch hr
    | ok resp =>
      rw [hm] at hr
      dsimp only at hr
      cases hs : step env o.synth resp st with
      | halt out =>
        rw [hs] at hr
        cases out with
        | ok ls0 ek0 =>
          dsimp only at hr
          obtain ⟨rfl, rfl⟩ : ls0 = ls ∧ ek0 = ek := by
            injection hr with h1 h2
            exact ⟨h1, h2⟩
          exact (step_found env o.synth resp st h).2 _ _ hs
        | llmError => exact nomatch hr
        | fuelOut => exact nomatch hr
      | next st' =>
        rw [hs] at hr
        exact ih (i + 1) st' ((step_found env o.synth resp st h).1 st' hs) ls ek hr

/-- The found-flag of the profile a finished `_invoke_agent` run returns. -/
def agentOutFound : AgentOut → Option Bool
  | .ok res _ => some (foundOf res.customerData)
  | _ => none

/-- C3: if the conversation state enters `_invoke_agent` with a found
customer profile, the returned state's profile is still a found one — a
`found = false` tool result never replaces it (only another found profile
may overwrite it, keeping the flag true). -/
theorem C3_profile_monotone (env : Env) (o : Oracles) (msgs : List Msg)
    (cd : Option LookupResult) (nr : Option String) (log : String)
    (h : foundOf cd = true) :
    agentOutFound (invokeAgent env o msgs cd nr log) ≠ some false := by
  have hpf : prefetch env msgs cd = (msgs, cd) := by
    unfold prefetch
    cases cd with
    | none => exact absurd h (by simp [foundOf])
    | some r =>
      have hr : r.found = true := h
      rw [if_neg (by simp [hr])]
  unfold invokeAgent
  rw [hpf]
  dsimp only
  split
  · simp [agentOutFound]
  · simp [agentOutFound]
  · next ls ek heq =>
      have := runLoopF_found env o (maxToolRounds + 1) 0
        ⟨injectProfile msgs cd, cd, nr, false, 0, log⟩ h ls ek heq
      simp only [agentOutFound, ne_eq, Option.some.injEq]
      rw [this]
      simp

/-- A model that replies directly with text. -/
def oDirectC3 : Oracles :=
  ⟨fun _ => .ok ⟨.str "Hello! How can I help?", []⟩, .ok .nothing, .ok .nothing⟩

/-- A found profile in state at entry. -/
def cdC3 : Option LookupResult :=
  some ⟨true, none, [("customer_id", "CUST_001"), ("tier", "premium")]⟩

/-- C3 witness: a concrete run entering with a found profile leaves with a
found profile. -/
theorem C3_witness :
    foundOf cdC3 = true ∧
    agentOutFound (invokeAgent envC1 oDirectC3 [.human (.str "hi")] cdC3 none "") ≠ some false ∧
    agentOutFound (invokeAgent envC1 oDirectC3 [.human (.str "hi")] cdC3 none "") = some true :=
  ⟨by decide, C3_profile_monotone envC1 oDirectC3 [.human (.str "hi")] cdC3 none "" (by decide),
   by decide⟩

/-! ## Claim C4 — fallback substitution in the synthesis branches -/

/-- The branch a completed synthesis reports. -/
def synthBranchOf : Except Unit SynthOut → Option SynthBranch
  | .ok so => some so.branch
  | .error _ => none

/-- The string content of the last message of a completed synthesis. -/
def lastMsgText : Except Unit SynthOut → Option String
  | .ok so =>
    match so.messages.getLast? with
    | some (.ai (.str s) _) => some s
    | _ => none
  | .error _ => none

/-- A completed synthesis appended exactly one call-free assistant message
with non-empty content. -/
def synthAppendOk (msgs : List Msg) : Except Unit SynthOut → Bool
  | .error _ => true
  | .ok so =>
    decide (so.messages.dropLast = msgs) &&
    (match so.messages.getLast? with
     | some (.ai c tcs) => tcs.isEmpty && !pyEmptyContent c
     | _ => false)

/-- When the entered branch substitutes its fixed fallback text: always in
the fixed-`end` branch; on a failed constrained call in the `end`-route
branches; on content failing the branch's emptiness check otherwise (a
failed call in the after-route branch raises instead). -/
def fallbackWhen : SynthBranch → Except Unit PyContent → Bool
  | .endFixed, _ => true
  | .afterRoute, .error _ => false
  | _, .error _ => true
  | .afterRoute, .ok c => pyEmptyContent c
  | _, .ok c => !nonemptyStrContent c

/-- The fixed text each branch falls back to. -/
def fallbackTextFor : SynthBranch → Option String → String
  | .statusConfirm, _ => processedCanned
  | .endFollowup, _ => fallback_reply_for_route "retention"
  | .endCancelWords, _ => fallback_reply_for_route "end"
  | .endFixed, _ => fallback_reply_for_route "end"
  | .afterRoute, nr => fallback_reply_for_route (routeHintOf nr)

theorem nonemptyStr_imp (c : PyContent) (h : nonemptyStrContent c = true) :
    pyEmptyContent c = false := by
  cases c with
  | str s =>
    simp only [nonemptyStrContent, ne_eq, decide_eq_true_eq] at h
    simp [pyEmptyContent, h]
  | nothing => exact absurd h (by decide)
  | blocks bs => exact absurd h (by simp [nonemptyStrContent])

theorem fallback_nonempty (r : String) :
    pyEmptyContent (.str (fallback_reply_for_route r)) = false := by
  unfold fallback_reply_for_route
  dsimp only
  split_ifs <;> decide

theorem synthAppendOk_concat (msgs : List Msg) (c : PyContent) (nr' : Option String)
    (b : SynthBranch) (fb : Bool) (h : pyEmptyContent c = false) :
    synthAppendOk msgs (.ok ⟨msgs ++ [.ai c []], nr', b, fb⟩) = true := by
  unfold synthAppendOk
  dsimp only
  rw [List.dropLast_concat, List.getLast?_concat]
  simp [h]

theorem lastMsgText_concat_str (msgs : List Msg) (s : String) (nr' : Option String)
    (b : SynthBranch) (fb : Bool) :
    lastMsgText (.ok ⟨msgs ++ [.ai (.str s) []], nr', b, fb⟩) = some s := by
  unfold lastMsgText
  dsimp only
  rw [List.getLast?_concat]

/-- C4 (amended): every reply-synthesis branch that completes appends
exactly one non-empty assistant message; on content failing the branch's
emptiness check the branch's fixed fallback reply is substituted (the
canned confirmation in the status-change branch, the retention fallback in
the retention-follow-up branch, the route's fallback otherwise); a FAILED
constrained call is recovered by the fallback only in the `end`-route
branches — in the after-route (billing/generic) branch it aborts the turn
with an error, which is the only way synthesis can fail. -/
theorem C4_synthesis_fallback (msgs : List Msg) (nr : Option String) (hsu : Bool)
    (cdo : Option LookupResult) (so : Except Unit PyContent) :
    (synthesizeReply msgs nr hsu cdo so = .error () →
       branchFor msgs nr hsu = .afterRoute ∧ so = .error ()) ∧
    (¬(branchFor msgs nr hsu = .afterRoute ∧ so = .error ()) →
       synthesizeReply msgs nr hsu cdo so ≠ .error ()) ∧
    synthAppendOk msgs (synthesizeReply msgs nr hsu cdo so) = true ∧
    (fallbackWhen (branchFor msgs nr hsu) so = true →
       lastMsgText (synthesizeReply msgs nr hsu cdo so) =
         some (fallbackTextFor (branchFor msgs nr hsu) nr)) ∧
    (synthesizeReply msgs nr hsu cdo so ≠ .error () →
       synthBranchOf (synthesizeReply msgs nr hsu cdo so) =
         some (branchFor msgs nr hsu)) := by
  by_cases hend : routeHintOf nr = "end"
  · by_cases hsu' : hsu = true
    · -- statusConfirm branch
      have hB : branchFor msgs nr hsu = .statusConfirm := by
        unfold branchFor
        rw [if_pos hend, if_pos hsu']
      cases so with
      | ok fc =>
        by_cases hne : nonemptyStrContent fc = true
        · have hS : synthesizeReply msgs nr hsu cdo (.ok fc) =
              .ok ⟨msgs ++ [.ai fc []], nr, .statusConfirm, false⟩ := by
            unfold synthesizeReply
            try dsimp only
            rw [if_pos hend, if_pos hsu']
            try dsimp only
            rw [if_pos hne]
          refine ⟨?_, ?_, ?_, ?_, ?_⟩
          · rw [hS]; intro hcon; exact nomatch hcon
          · intro _; rw [hS]; simp
          · rw [hS]; exact synthAppendOk_concat msgs fc nr _ _ (nonemptyStr_imp fc hne)
          · rw [hB]; intro hw
            simp only [fallbackWhen] at hw
            rw [hne] at hw
            exact absurd hw (by decide)
          · intro _; rw [hS, hB]; rfl
        · have hS : synthesizeReply msgs nr hsu cdo (.ok fc) =
              .ok ⟨msgs ++ [.ai (.str processedCanned) []], nr, .statusConfirm, true⟩ := by
            unfold synthesizeReply
            try dsimp only
            rw [if_pos hend, if_pos hsu']
            try dsimp only
            rw [if_neg hne]
          refine ⟨?_, ?_, ?_, ?_, ?_⟩
          · rw [hS]; intro hcon; exact nomatch hcon
          · intro _; rw [hS]; simp
          · rw [hS]; exact synthAppendOk_concat msgs _ nr _ _ (by decide)
          · rw [hS, hB]; intro _; exact lastMsgText_concat_str msgs processedCanned nr _ _
          · intro _; rw [hS, hB]; rfl
      | error u =>
        cases u
        have hS : synthesizeReply msgs nr hsu cdo (.error ()) =
            .ok ⟨msgs ++ [.ai (.str processedCanned) []], nr, .statusConfirm, true⟩ := by
          unfold synthesizeReply
          try dsimp only
          rw [if_pos hend, if_pos hsu']
        refine ⟨?_, ?_, ?_, ?_, ?_⟩
        · rw [hS]; intro hcon; exact nomatch hcon
        · intro _; rw [hS]; simp
        · rw [hS]; exact synthAppendOk_concat msgs _ nr _ _ (by decide)
        · rw [hS, hB]; intro _; exact lastMsgText_concat_str msgs processedCanned nr _ _
        · intro _; rw [hS, hB]; rfl
    · by_cases hfu : anySub (lastUserSynth msgs) retentionFollowupsEnd = true
      · -- endFollowup branch
        have hB : branchFor msgs nr hsu = .endFollowup := by
          unfold branchFor
          rw [if_pos hend, if_neg hsu', if_pos hfu]
        cases so with
        | ok fc =>
          by_cases hne : nonemptyStrContent fc = true
          · have hS : synthesizeReply msgs nr hsu cdo (.ok fc) =
                .ok ⟨msgs ++ [.ai fc []], nr, .endFollowup, false⟩ := by
              unfold synthesizeReply
              try dsimp only
              rw [if_pos hend, if_neg hsu']
              try dsimp only
              rw [if_pos hfu]
              try dsimp only
              rw [if_pos hne]
            refine ⟨?_, ?_, ?_, ?_, ?_⟩
            · rw [hS]; intro hcon; exact nomatch hcon
            · intro _; rw [hS]; simp
            · rw [hS]; exact synthAppendOk_concat msgs fc nr _ _ (nonemptyStr_imp fc hne)
            · rw [hB]; intro hw
              simp only [fallbackWhen] at hw
              rw [hne] at hw
              exact absurd hw (by decide)
            · intro _; rw [hS, hB]; rfl
          · have hS : synthesizeReply msgs nr hsu cdo (.ok fc) =
                .ok ⟨msgs ++ [.ai (.str (fallback_reply_for_route "retention")) []], nr,
                  .endFollowup, true⟩ := by
              unfold synthesizeReply
              try dsimp only
              rw [if_pos hend, if_neg hsu']
              try dsimp only
              rw [if_pos hfu]
              try dsimp only
              rw [if_neg hne]
            refine ⟨?_, ?_, ?_, ?_, ?_⟩
            · rw [hS]; intro hcon; exact nomatch hcon
            · intro _; rw [hS]; simp
            · rw [hS]; exact synthAppendOk_concat msgs _ nr _ _ (fallback_nonempty "retention")
            · rw [hS, hB]; intro _; exact lastMsgText_concat_str msgs _ nr _ _
            · intro _; rw [hS, hB]; rfl
        | error u =>
          cases u
          have hS : synthesizeReply msgs nr hsu cdo (.error ()) =
              .ok ⟨msgs ++ [.ai (.str (fallback_reply_for_route "retention")) []], nr,
                .endFollowup, true⟩ := by
            unfold synthesizeReply
            try dsimp only
            rw [if_pos hend, if_neg hsu']
            try dsimp only
            rw [if_pos hfu]
          refine ⟨?_, ?_, ?_, ?_, ?_⟩
          · rw [hS]; intro hcon; exact nomatch hcon
          · intro _; rw [hS]; simp
          · rw [hS]; exact synthAppendOk_concat msgs _ nr _ _ (fallback_nonempty "retention")
          · rw [hS, hB]; intro _; exact lastMsgText_concat_str msgs _ nr _ _
          · intro _; rw [hS, hB]; rfl
      · by_cases hcw : anySub (lastUserSynth msgs) cancelWordsEnd = true
        · -- endCancelWords branch
          have hB : branchFor msgs nr hsu = .endCancelWords := by
            unfold branchFor
            rw [if_pos hend, if_neg hsu', if_neg hfu, if_pos hcw]
          cases so with
          | ok fc =>
            by_cases hne : nonemptyStrContent fc = true
            · have hS : synthesizeReply msgs nr hsu cdo (.ok fc) =
                  .ok ⟨msgs ++ [.ai fc []], nr, .endCancelWords, false⟩ := by
                unfold synthesizeReply
                try dsimp only
                rw [if_pos hend, if_neg hsu']
                try dsimp only
                rw [if_neg hfu, if_pos hcw]
                try dsimp only
                rw [if_pos hne]
              refine ⟨?_, ?_, ?_, ?_, ?_⟩
              · rw [hS]; intro hcon; exact nomatch hcon
              · intro _; rw [hS]; simp
              · rw [hS]; exact synthAppendOk_concat msgs fc nr _ _ (nonemptyStr_imp fc hne)
              · rw [hB]; intro hw
                simp only [fallbackWhen] at hw
                rw [hne] at hw
                exact absurd hw (by decide)
              · intro _; rw [hS, hB]; rfl
            · have hS : synthesizeReply msgs nr hsu cdo (.ok fc) =
                  .ok ⟨msgs ++ [.ai (.str (fallback_reply_for_route "end")) []], nr,
                    .endCancelWords, true⟩ := by
                unfold synthesizeReply
                try dsimp only
                rw [if_pos hend, if_neg hsu']
                try dsimp only
                rw [if_neg hfu, if_pos hcw]
                try dsimp only
                rw [if_neg hne]
              refine ⟨?_, ?_, ?_, ?_, ?_⟩
              · rw [hS]; intro hcon; exact nomatch hcon
              · intro _; rw [hS]; simp
              · rw [hS]; exact synthAppendOk_concat msgs _ nr _ _ (fallback_nonempty "end")
              · rw [hS, hB]; intro _; exact lastMsgText_concat_str msgs _ nr _ _
              · intro _; rw [hS, hB]; rfl
          | error u =>
            cases u
            have hS : synthesizeReply msgs nr hsu cdo (.error ()) =
                .ok ⟨msgs ++ [.ai (.str (fallback_reply_for_route "end")) []], nr,
                  .endCancelWords, true⟩ := by
              unfold synthesizeReply
              try dsimp only
              rw [if_pos hend, if_neg hsu']
              try dsimp only
              rw [if_neg hfu, if_pos hcw]
            refine ⟨?_, ?_, ?_, ?_, ?_⟩
            · rw [hS]; intro hcon; exact nomatch hcon
            · intro _; rw [hS]; simp
            · rw [hS]; exact synthAppendOk_concat msgs _ nr _ _ (fallback_nonempty "end")
            · rw [hS, hB]; intro _; exact lastMsgText_concat_str msgs _ nr _ _
            · intro _; rw [hS, hB]; rfl
        · -- endFixed branch
          have hB : branchFor msgs nr hsu = .endFixed := by
            unfold branchFor
            rw [if_pos hend, if_neg hsu', if_neg hfu, if_neg hcw]
          have hS : synthesizeReply msgs nr hsu cdo so =
              .ok ⟨msgs ++ [.ai (.str (fallback_reply_for_route "end")) []], nr,
                .endFixed, true⟩ := by
            unfold synthesizeReply
            try dsimp only
            rw [if_pos hend, if_neg hsu']
            try dsimp only
            rw [if_neg hfu, if_neg hcw]
          refine ⟨?_, ?_, ?_, ?_, ?_⟩
          · rw [hS]; intro hcon; exact nomatch hcon
          · intro _; rw [hS]; simp
          · rw [hS]; exact synthAppendOk_concat msgs _ nr _ _ (fallback_nonempty "end")
          · rw [hS, hB]; intro _; exact lastMsgText_concat_str msgs _ nr _ _
          · intro _; rw [hS, hB]; rfl
  · -- afterRoute branch
    have hB : branchFor msgs nr hsu = .afterRoute := by
      unfold branchFor
      rw [if_neg hend]
    cases so with
    | error u =>
      cases u
      have hS : synthesizeReply msgs nr hsu cdo (.error ()) = .error () := by
        unfold synthesizeReply
        try dsimp only
        rw [if_neg hend]
      refine ⟨?_, ?_, ?_, ?_, ?_⟩
      · intro _; exact ⟨hB, rfl⟩
      · intro hcon; exact absurd ⟨hB, rfl⟩ hcon
      · rw [hS]; rfl
      · rw [hB]; intro hw; exact absurd hw (by decide)
      · intro hne'; rw [hS] at hne'; exact absurd rfl hne'
    | ok fc =>
      by_cases hempty : pyEmptyContent fc = true
      · have hS : synthesizeReply msgs nr hsu cdo (.ok fc) =
            .ok ⟨msgs ++ [.ai (.str (fallback_reply_for_route (routeHintOf nr))) []],
              (if routeHintOf nr = "billing" && anySub (lastUserLower msgs) retentionFollowupsBilling
               then some "end" else nr), .afterRoute, true⟩ := by
          unfold synthesizeReply
          try dsimp only
          rw [if_neg hend]
          try dsimp only
          rw [hempty]
          try dsimp only
          rw [if_pos rfl]
        refine ⟨?_, ?_, ?_, ?_, ?_⟩
        · rw [hS]; intro hcon; exact nomatch hcon
        · intro _; rw [hS]; simp
        · rw [hS]; exact synthAppendOk_concat msgs _ _ _ _ (fallback_nonempty _)
        · rw [hS, hB]; intro _; exact lastMsgText_concat_str msgs _ _ _ _
        · intro _; rw [hS, hB]; rfl
      · have hS : synthesizeReply msgs nr hsu cdo (.ok fc) =
            .ok ⟨msgs ++ [.ai fc []],
              (if routeHintOf nr = "billing" && anySub (lastUserLower msgs) retentionFollowupsBilling
               then some "end" else nr), .afterRoute, false⟩ := by
          unfold synthesizeReply
          try dsimp only
          rw [if_neg hend]
          try dsimp only
          have he : pyEmptyContent fc = false := by
            cases hx : pyEmptyContent fc
            · rfl
            · exact absurd hx hempty
          rw [he]
          try dsimp only
          rw [if_neg (by simp)]
        refine ⟨?_, ?_, ?_, ?_, ?_⟩
        · rw [hS]; intro hcon; exact nomatch hcon
        · intro _; rw [hS]; simp
        · rw [hS]
          exact synthAppendOk_concat msgs fc _ _ _ (by
            cases hx : pyEmptyContent fc
            · rfl
            · exact absurd hx hempty)
        · rw [hB]; intro hw
          simp only [fallbackWhen] at hw
          exact absurd hw hempty
        · intro _; rw [hS, hB]; rfl

/-- C4 counterexample: in the after-route (billing) synthesis branch a
failed constrained LLM call produces an error — no fallback reply is
substituted and no message is appended — refuting "in every synthesis
branch, if the constrained call fails, the route's fixed fallback reply is
substituted". -/
theorem C4_counterexample :
    branchFor [.human (.str "my bill is wrong")] (some "billing") false = .afterRoute ∧
    synthesizeReply [.human (.str "my bill is wrong")] (some "billing") false none (.error ()) =
      .error () :=
  ⟨rfl, rfl⟩

/-- C4 witness: whitespace-only content in the billing branch is replaced by
the billing fallback reply, and the appended message is non-empty. -/
theorem C4_witness :
    lastMsgText (synthesizeReply [.human (.str "hello")] (some "billing") false none
        (.ok (.str "  "))) =
      some (fallbackTextFor (branchFor [.human (.str "hello")] (some "billing") false)
        (some "billing")) ∧
    synthAppendOk [.human (.str "hello")]
      (synthesizeReply [.human (.str "hello")] (some "billing") false none (.ok (.str "  "))) =
      true :=
  ⟨(C4_synthesis_fallback [.human (.str "hello")] (some "billing") false none
      (.ok (.str "  "))).2.2.2.1 (by decide),
   (C4_synthesis_fallback [.human (.str "hello")] (some "billing") false none
      (.ok (.str "  "))).2.2.1⟩
